import Mathlib

/-!
Verification development for the `websocket_client.py` WebSocket client
wrapper.  The Python class `WebSocketClient` is embedded shallowly: its
mutable attributes become a `ClientState` record, each method becomes a
state-passing function, and the external transport (the `websockets`
library) is an oracle argument describing whether the open / write / pong
succeeded.  The `json` standard-library codec is modelled executably: the
values the client serialises are the fragment `None`, `bool`, `int`,
`str`, `list`, `dict` with string keys, and the decoder follows the
Python scanner's acceptance exactly — including floats (fraction or
exponent parts), the `NaN` and `Infinity` constants, the leading-zero
rule and surrogate escapes — reporting decodes whose value falls outside
that fragment (floats, lone-surrogate strings) as an abstract
out-of-fragment result rather than a decode failure.
-/

/-- Python values of the JSON-representable fragment handled by the client:
`None`, `bool`, `int`, `str`, `list` and `dict` with string keys. -/
inductive PyValue where
  | null
  | bool (b : Bool)
  | int (n : Int)
  | str (s : String)
  | list (xs : List PyValue)
  | dict (m : List (String × PyValue))

/-- JSON whitespace accepted by `json.loads` (space, tab, newline, return). -/
def isJsonWs (c : Char) : Bool := c = ' ' || c = '\t' || c = '\n' || c = '\r'

/-- Skip leading JSON whitespace. -/
def skipWs : List Char → List Char
  | [] => []
  | c :: cs => if isJsonWs c then skipWs cs else c :: cs

/-- Decimal digit test, by code point (48 to 57). -/
def isDigitCh (c : Char) : Bool := 48 ≤ c.toNat && c.toNat ≤ 57

/-- The decimal digit character for a value below ten. -/
def decChar : Nat → Char
  | 0 => '0' | 1 => '1' | 2 => '2' | 3 => '3' | 4 => '4'
  | 5 => '5' | 6 => '6' | 7 => '7' | 8 => '8' | _ => '9'

/-- Lower-case hexadecimal digit character, as `json.dumps` emits in
escape sequences. -/
def hexChar (n : Nat) : Char :=
  if n < 10 then decChar n
  else match n with
    | 10 => 'a' | 11 => 'b' | 12 => 'c' | 13 => 'd' | 14 => 'e' | _ => 'f'

/-- Decimal digits of a natural number, most significant first; the first
argument is recursion fuel (any value above the number works). -/
def natDigitsAux : Nat → Nat → List Char
  | 0, _ => []
  | fuel + 1, n =>
    if n < 10 then [decChar n]
    else natDigitsAux fuel (n / 10) ++ [decChar (n % 10)]

/-- Decimal digits of a natural number, as Python `repr` prints it. -/
def natDigits (n : Nat) : List Char := natDigitsAux (n + 1) n

/-- Characters of Python `repr` of an `int`. -/
def intChars (n : Int) : List Char :=
  if n < 0 then '-' :: natDigits n.natAbs else natDigits n.toNat

/-- Escape of one character inside a JSON string, following `json.dumps`
with `ensure_ascii=False`: quote, backslash and control characters are
escaped (named escapes for backspace, form feed, newline, return, tab;
`u00xx` for the rest), everything else is emitted verbatim. -/
def escapeChar (c : Char) : List Char :=
  if c = '"' then ['\\', '"']
  else if c = '\\' then ['\\', '\\']
  else if c = '\x08' then ['\\', 'b']
  else if c = '\x0c' then ['\\', 'f']
  else if c = '\n' then ['\\', 'n']
  else if c = '\r' then ['\\', 'r']
  else if c = '\t' then ['\\', 't']
  else if c.toNat < 32 then
    ['\\', 'u', '0', '0', hexChar (c.toNat / 16), hexChar (c.toNat % 16)]
  else [c]

/-- Escape every character of a string body. -/
def escChars : List Char → List Char
  | [] => []
  | c :: cs => escapeChar c ++ escChars cs

/-- A JSON string literal: quote, escaped body, quote. -/
def strChars (s : String) : List Char := '"' :: escChars s.data ++ ['"']

mutual

/-- Characters of `json.dumps(v, ensure_ascii=False)` on the modelled
fragment, with the default separators of the Python encoder. -/
def dumpsV : PyValue → List Char
  | .null => "null".data
  | .bool true => "true".data
  | .bool false => "false".data
  | .int n => intChars n
  | .str s => strChars s
  | .list xs => '[' :: dumpsList xs ++ [']']
  | .dict m => '\x7b' :: dumpsDict m ++ ['\x7d']

/-- Serialised items of a list, separated by a comma and a space. -/
def dumpsList : List PyValue → List Char
  | [] => []
  | x :: xs => dumpsV x ++ dumpsListTail xs

/-- Serialised items after the first, each preceded by a comma and space. -/
def dumpsListTail : List PyValue → List Char
  | [] => []
  | x :: xs => ',' :: ' ' :: dumpsV x ++ dumpsListTail xs

/-- Serialised members of a dict, `"key": value` separated by comma-space. -/
def dumpsDict : List (String × PyValue) → List Char
  | [] => []
  | (k, v) :: m => strChars k ++ ':' :: ' ' :: dumpsV v ++ dumpsDictTail m

/-- Serialised members after the first, each preceded by a comma and space. -/
def dumpsDictTail : List (String × PyValue) → List Char
  | [] => []
  | (k, v) :: m => ',' :: ' ' :: strChars k ++ ':' :: ' ' :: dumpsV v ++ dumpsDictTail m

end

/-- Model of `json.dumps(v, ensure_ascii=False)` on the modelled fragment. -/
def dumps (v : PyValue) : String := String.mk (dumpsV v)

/-- Value of a hexadecimal digit character, either case, as the decoder
accepts it. -/
def hexVal (c : Char) : Option Nat :=
  if isDigitCh c then some (c.toNat - 48)
  else if 97 ≤ c.toNat && c.toNat ≤ 102 then some (c.toNat - 87)
  else if 65 ≤ c.toNat && c.toNat ≤ 70 then some (c.toNat - 55)
  else none

/-- Decoded character of a single-character escape. -/
def unescape (c : Char) : Option Char :=
  if c = '"' then some '"'
  else if c = '\\' then some '\\'
  else if c = '/' then some '/'
  else if c = 'b' then some '\x08'
  else if c = 'f' then some '\x0c'
  else if c = 'n' then some '\n'
  else if c = 'r' then some '\r'
  else if c = 't' then some '\t'
  else none

/-- Result of a successfully decoded JSON value: either a value of the
modelled fragment, or a value outside it.  Python `json.loads` also
accepts floats (numbers with a fraction or exponent, the constants
`NaN`, `Infinity` and `-Infinity`) and strings containing lone
surrogates; those decode fine but their values fall outside the
modelled fragment, so the model records only that an out-of-fragment
value was produced (the listener still delivers it). -/
inductive DecVal where
  | exact (v : PyValue)
  | approx

/-- Decoded body of a JSON string literal: its characters, or a marker
that the decoded text contains a lone surrogate (Python keeps lone
surrogates in the `str`, which has no counterpart here). -/
inductive SBody where
  | exact (cs : List Char)
  | approx

/-- Prepend a decoded character to a string-body parse result. -/
def consStr (d : Char) (r : Option (SBody × List Char)) :
    Option (SBody × List Char) :=
  match r with
  | some (.exact p, rest) => some (.exact (d :: p), rest)
  | some (.approx, rest) => some (.approx, rest)
  | none => none

/-- Mark a string-body parse result as outside the modelled fragment. -/
def markApprox (r : Option (SBody × List Char)) :
    Option (SBody × List Char) :=
  match r with
  | some p => some (.approx, p.2)
  | none => none

/-- Heads of a character list that begin a backslash-u escape (the
lookahead `json.loads` performs after a high surrogate). -/
def startsEscU : List Char → Bool
  | '\\' :: 'u' :: _ => true
  | _ => false

mutual

/-- Decode a JSON string body after its opening quote: returns the decoded
body and the input after the closing quote.  Raw control characters
are rejected, as `json.loads` rejects them in strict mode. -/
def parseStringBody : List Char → Option (SBody × List Char)
  | [] => none
  | c :: cs =>
    if c = '"' then some (.exact [], cs)
    else if c = '\\' then parseEscape cs
    else if c.toNat < 32 then none
    else consStr c (parseStringBody cs)

/-- Decode what follows a backslash inside a string body. -/
def parseEscape : List Char → Option (SBody × List Char)
  | [] => none
  | e :: cs1 =>
    if e = 'u' then parseUnicode cs1
    else
      match unescape e with
      | some d => consStr d (parseStringBody cs1)
      | none => none

/-- Decode a four-hex-digit escape inside a string body, as the Python
scanner does: a non-surrogate value is the scalar it denotes; a lone low
surrogate is kept in the Python string (which puts the decoded value
outside the modelled fragment) with the scan continuing right after it;
a high surrogate starts the pairing lookahead; a backslash-u whose four
hex digits are missing or invalid is an error. -/
def parseUnicode : List Char → Option (SBody × List Char)
  | h1 :: h2 :: h3 :: h4 :: cs2 =>
    match hexVal h1, hexVal h2, hexVal h3, hexVal h4 with
    | some a, some b, some c2, some d =>
      let n := ((a * 16 + b) * 16 + c2) * 16 + d
      if n < 55296 ∨ 57343 < n then consStr (Char.ofNat n) (parseStringBody cs2)
      else if 56320 ≤ n then markApprox (parseStringBody cs2)
      else parseSurChain n cs2
    | _, _, _, _ => none
  | _ => none

/-- Continue after a high surrogate `n`, as the Python scanner's
while-loop does: a following backslash-u escape of a low surrogate
combines with `n` into the astral scalar; any other following
backslash-u escape leaves `n` lone (out of fragment) and is processed
as its own escape — a non-surrogate scalar is emitted, another high
surrogate restarts the pairing; without a following backslash-u escape
`n` stays lone and the ordinary scan continues (a backslash-u with
missing or invalid hex digits is an error, as in `json.loads`). -/
def parseSurChain (n : Nat) : List Char → Option (SBody × List Char)
  | '\\' :: 'u' :: g1 :: g2 :: g3 :: g4 :: cs3 =>
    (match hexVal g1, hexVal g2, hexVal g3, hexVal g4 with
    | some a2, some b2, some c3, some d2 =>
      let m := ((a2 * 16 + b2) * 16 + c3) * 16 + d2
      if 56320 ≤ m ∧ m ≤ 57343 then
        consStr (Char.ofNat (65536 + (n - 55296) * 1024 + (m - 56320)))
          (parseStringBody cs3)
      else if m < 55296 ∨ 57343 < m then
        markApprox (consStr (Char.ofNat m) (parseStringBody cs3))
      else markApprox (parseSurChain m cs3)
    | _, _, _, _ => none)
  | [] => none
  | c :: cs =>
    if startsEscU (c :: cs) then none
    else if c = '"' then some (.approx, cs)
    else if c = '\\' then markApprox (parseEscape cs)
    else if c.toNat < 32 then none
    else markApprox (parseStringBody cs)

end

/-- Take the maximal run of decimal digits from the front of the input. -/
def takeDigits : List Char → (List Char × List Char)
  | [] => ([], [])
  | c :: cs =>
    if isDigitCh c then
      let p := takeDigits cs
      (c :: p.1, p.2)
    else ([], c :: cs)

/-- Numeric value of a digit run, with an accumulator. -/
def valAux (acc : Nat) : List Char → Nat
  | [] => acc
  | c :: cs => valAux (acc * 10 + (c.toNat - 48)) cs

/-- Numeric value of a digit run. -/
def digitsVal (ds : List Char) : Nat := valAux 0 ds

/-- Read the remaining letters of the literal word for `None`. -/
def expectNull : List Char → Option (DecVal × List Char)
  | 'u' :: 'l' :: 'l' :: r => some (.exact .null, r)
  | _ => none

/-- Read the remaining letters of the literal word for `True`. -/
def expectTrue : List Char → Option (DecVal × List Char)
  | 'r' :: 'u' :: 'e' :: r => some (.exact (.bool true), r)
  | _ => none

/-- Read the remaining letters of the literal word for `False`. -/
def expectFalse : List Char → Option (DecVal × List Char)
  | 'a' :: 'l' :: 's' :: 'e' :: r => some (.exact (.bool false), r)
  | _ => none

/-- Read the remaining letters of the `NaN` constant, which `json.loads`
accepts by default and decodes to a float (outside the fragment). -/
def expectNaN : List Char → Option (DecVal × List Char)
  | 'a' :: 'N' :: r => some (.approx, r)
  | _ => none

/-- Read the remaining letters after the capital I of the `Infinity`
constant, which `json.loads` accepts by default and decodes to a float
(outside the fragment). -/
def expectInf : List Char → Option (DecVal × List Char)
  | 'n' :: 'f' :: 'i' :: 'n' :: 'i' :: 't' :: 'y' :: r => some (.approx, r)
  | _ => none

/-- Read an optional fraction part of a JSON number: a dot followed by at
least one digit.  When the dot is not followed by a digit the number ends
before the dot (the optional group of the Python scanner's number
pattern fails to match), so nothing is consumed. -/
def parseFrac : List Char → Option (List Char)
  | [] => none
  | c :: cs =>
    if c = '.' then
      let p := takeDigits cs
      if p.1.isEmpty then none else some p.2
    else none

/-- Read the digit run of an exponent part, after the marker and the
optional sign. -/
def parseExpDigits (l : List Char) : Option (List Char) :=
  let p := takeDigits l
  if p.1.isEmpty then none else some p.2

/-- Read what follows an exponent marker: an optional sign, then the
digit run. -/
def parseExpSign : List Char → Option (List Char)
  | [] => none
  | s :: cs2 =>
    if s = '+' ∨ s = '-' then parseExpDigits cs2
    else parseExpDigits (s :: cs2)

/-- Read an optional exponent part of a JSON number: an e or E, an
optional sign, then at least one digit; nothing is consumed when the
group is incomplete. -/
def parseExp : List Char → Option (List Char)
  | [] => none
  | c :: cs =>
    if c = 'e' ∨ c = 'E' then parseExpSign cs
    else none

/-- Continue a JSON number after its integer part: with a fraction or an
exponent the Python scanner produces a float, outside the modelled
fragment; with neither it produces the integer itself. -/
def numAfterInt (neg : Bool) (n : Nat) (l : List Char) :
    Option (DecVal × List Char) :=
  match parseFrac l with
  | some r1 =>
    (match parseExp r1 with
     | some r2 => some (.approx, r2)
     | none => some (.approx, r1))
  | none =>
    match parseExp l with
    | some r2 => some (.approx, r2)
    | none =>
      some (.exact (.int (if neg then -(Int.ofNat n) else Int.ofNat n)), l)

/-- Read a JSON number starting at a digit (any leading minus already
consumed).  Following the Python scanner's number pattern, the integer
part is a single zero or a nonzero digit followed by any digits — a
leading zero ends the integer part at the zero — then the optional
fraction and exponent parts follow. -/
def parseNumber (neg : Bool) : List Char → Option (DecVal × List Char)
  | [] => none
  | c :: cs =>
    if c = '0' then numAfterInt neg 0 cs
    else if isDigitCh c then
      let p := takeDigits (c :: cs)
      numAfterInt neg (digitsVal p.1) p.2
    else none

/-- Read what follows a leading minus sign: a number, or the `Infinity`
constant (the scanner tries its number pattern first, then the
`-Infinity` constant). -/
def parseNeg : List Char → Option (DecVal × List Char)
  | [] => none
  | c2 :: cs2 =>
    if isDigitCh c2 then parseNumber true (c2 :: cs2)
    else if c2 = 'I' then expectInf cs2
    else none

/-- Wrap a decoded string body as a JSON value. -/
def strResult : Option (SBody × List Char) → Option (DecVal × List Char)
  | some (.exact p, r) => some (.exact (.str (String.mk p)), r)
  | some (.approx, r) => some (.approx, r)
  | none => none

/-- Cons a decoded item onto a decoded item list. -/
def consItem (d t : DecVal) : DecVal :=
  match d, t with
  | .exact v, .exact (.list xs) => .exact (.list (v :: xs))
  | _, _ => .approx

/-- The one-item decoded list. -/
def singleItem : DecVal → DecVal
  | .exact v => .exact (.list [v])
  | .approx => .approx

/-- Cons a decoded member onto a decoded member map. -/
def consMember (sk : SBody) (d t : DecVal) : DecVal :=
  match sk, d, t with
  | .exact ks, .exact v, .exact (.dict m) => .exact (.dict ((String.mk ks, v) :: m))
  | _, _, _ => .approx

/-- The one-member decoded map. -/
def singleMember (sk : SBody) (d : DecVal) : DecVal :=
  match sk, d with
  | .exact ks, .exact v => .exact (.dict [(String.mk ks, v)])
  | _, _ => .approx

mutual

/-- Read one JSON value, modelling the `json.loads` scanner: literal
words, the `NaN` and `Infinity` constants, strings, numbers (possibly
after a minus sign), arrays and objects.  The first argument is
recursion fuel; every recursive call decreases it, and any value at
least twice the input length suffices for texts the scanner accepts. -/
def pValue : Nat → List Char → Option (DecVal × List Char)
  | 0, _ => none
  | fuel + 1, l =>
    match l with
    | [] => none
    | c :: cs =>
      if c = 'n' then expectNull cs
      else if c = 't' then expectTrue cs
      else if c = 'f' then expectFalse cs
      else if c = 'N' then expectNaN cs
      else if c = 'I' then expectInf cs
      else if c = '"' then strResult (parseStringBody cs)
      else if c = '-' then parseNeg cs
      else if isDigitCh c then parseNumber false (c :: cs)
      else if c = '[' then pArr fuel cs
      else if c = '\x7b' then pObj fuel cs
      else none

/-- Read an array body after its opening bracket: empty, or items. -/
def pArr : Nat → List Char → Option (DecVal × List Char)
  | 0, _ => none
  | fuel + 1, l =>
    match skipWs l with
    | [] => none
    | c :: cs =>
      if c = ']' then some (.exact (.list []), cs)
      else pArrMore fuel (c :: cs)

/-- Read one-or-more array items separated by commas, then the closing
bracket. -/
def pArrMore : Nat → List Char → Option (DecVal × List Char)
  | 0, _ => none
  | fuel + 1, l =>
    match pValue fuel (skipWs l) with
    | none => none
    | some (d, r) => pAfterItem fuel d r

/-- After one array item: a comma and more items, or the closing
bracket. -/
def pAfterItem : Nat → DecVal → List Char → Option (DecVal × List Char)
  | 0, _, _ => none
  | fuel + 1, d, r =>
    match skipWs r with
    | [] => none
    | c :: r2 =>
      if c = ',' then
        match pArrMore fuel r2 with
        | some q => some (consItem d q.1, q.2)
        | none => none
      else if c = ']' then some (singleItem d, r2)
      else none

/-- Read an object body after its opening brace: empty, or members. -/
def pObj : Nat → List Char → Option (DecVal × List Char)
  | 0, _ => none
  | fuel + 1, l =>
    match skipWs l with
    | [] => none
    | c :: cs =>
      if c = '\x7d' then some (.exact (.dict []), cs)
      else pObjMore fuel (c :: cs)

/-- Read one-or-more object members (string key, colon, value) separated
by commas, then the closing brace. -/
def pObjMore : Nat → List Char → Option (DecVal × List Char)
  | 0, _ => none
  | fuel + 1, l =>
    match skipWs l with
    | [] => none
    | c :: cs =>
      if c = '"' then pMember fuel cs
      else none

/-- Read one object member after the opening quote of its key. -/
def pMember : Nat → List Char → Option (DecVal × List Char)
  | 0, _ => none
  | fuel + 1, cs =>
    match parseStringBody cs with
    | none => none
    | some (sk, r1) => pMemberColon fuel sk r1

/-- Read the colon after a member key. -/
def pMemberColon : Nat → SBody → List Char → Option (DecVal × List Char)
  | 0, _, _ => none
  | fuel + 1, sk, r1 =>
    match skipWs r1 with
    | [] => none
    | c :: r2 =>
      if c = ':' then pMemberValue fuel sk r2
      else none

/-- Read the value of a member. -/
def pMemberValue : Nat → SBody → List Char → Option (DecVal × List Char)
  | 0, _, _ => none
  | fuel + 1, sk, r2 =>
    match pValue fuel (skipWs r2) with
    | none => none
    | some (d, r3) => pMemberAfter fuel sk d r3

/-- After one member: a comma and more members, or the closing brace. -/
def pMemberAfter : Nat → SBody → DecVal → List Char →
    Option (DecVal × List Char)
  | 0, _, _, _ => none
  | fuel + 1, sk, d, r3 =>
    match skipWs r3 with
    | [] => none
    | c :: r4 =>
      if c = ',' then
        match pObjMore fuel r4 with
        | some q => some (consMember sk d q.1, q.2)
        | none => none
      else if c = '\x7d' then some (singleMember sk d, r4)
      else none

end

/-- Model of `json.loads`: skip whitespace, read one value, require only
whitespace after it.  Texts the Python decoder rejects (malformed JSON,
leading-zero integers, incomplete fraction or exponent groups, stray
trailing input) give nothing; texts it decodes to a value outside the
modelled fragment (floats, the NaN and infinity constants,
lone-surrogate strings, and any container holding one) give the
out-of-fragment marker.  CPython's interpreter recursion limit on very
deeply nested containers is a resource bound, not modelled. -/
def loads (s : String) : Option DecVal :=
  match pValue (2 * s.data.length + 2) (skipWs s.data) with
  | some (d, r) => if (skipWs r).isEmpty then some d else none
  | none => none

/-- Heads of a character list contain no decimal digit (so a maximal
digit run before it ends exactly there). -/
def noDigitHead : List Char → Bool
  | [] => true
  | c :: _ => !isDigitCh c

/-- Heads of a character list at which a JSON number cannot continue:
no digit and none of the dot and exponent markers (so a serialised
number before it ends exactly there). -/
def numBoundary : List Char → Bool
  | [] => true
  | c :: _ => !(isDigitCh c || c = '.' || c = 'e' || c = 'E')

/-! ## The client model

`WebSocketClient` state and operations, embedded from
`websocket_client.py`.  The transport is an oracle: a `TransportResult`
says whether `websockets.connect` returned an open protocol handle or
raised.  Handlers are external callbacks: the state records whether one is
registered, and dispatch is recorded as an emitted `Event`. -/

/-- Header mapping, as an association list in insertion order. -/
abbrev Headers := List (String × String)

/-- Abstract transport handle; `closed` mirrors the transport-reported
`websocket.closed` property. -/
structure Handle where
  hid : Nat
  closed : Bool
deriving DecidableEq, Repr

/-- Outcome of one `websockets.connect` call: an open handle, or the
exception message it raised. -/
inductive TransportResult where
  | opened (h : Handle)
  | failed (e : String)
deriving DecidableEq, Repr

/-- The mutable attributes of a `WebSocketClient` instance set in
`__init__`.  `url`, `headers` and `ssl_context` model the stored
connection parameters `_url`, `_headers`, `_ssl_context`; the four
`hasOn...` flags record whether the corresponding handler is registered.
SSL contexts are treated abstractly, modelled by a number. -/
structure ClientState where
  websocket : Option Handle
  is_connected : Bool
  reconnect_attempts : Nat
  max_reconnect_attempts : Nat
  url : Option String
  headers : Option Headers
  ssl_context : Option Nat
  hasOnMessage : Bool
  hasOnError : Bool
  hasOnConnect : Bool
  hasOnDisconnect : Bool
deriving DecidableEq, Repr

/-- The state `__init__` produces: no handle, not connected, zero
reconnect attempts out of a maximum of five, no stored parameters. -/
def initClient : ClientState :=
  { websocket := none
    is_connected := false
    reconnect_attempts := 0
    max_reconnect_attempts := 5
    url := none
    headers := none
    ssl_context := none
    hasOnMessage := false
    hasOnError := false
    hasOnConnect := false
    hasOnDisconnect := false }

/-- Observable actions of the client: transport operations, handler
dispatches, task management and log lines. -/
inductive Event where
  | transportOpen (url : String) (headers : Headers)
  | callOnConnect
  | callOnError (e : String)
  | callOnDisconnect
  | callOnMessage (v : DecVal)
  | listenerStarted
  | transportWrite (data : String)
  | pingSent
  | closeHandshake (code : Nat) (reason : String)
  | cancelTask
  | sleepReconnectInterval
  | logError

/-- The fixed default request headers of `connect`. -/
def default_headers : Headers :=
  [("User-Agent", "Python WebSocket Client/1.0"), ("Accept", "*/*")]

/-- Python dict merge, as in the expression with double-star unpacking of
`default_headers` then `self._headers`: keys of the first mapping keep
their position but take the second mapping's value on collision, and keys
only in the second mapping follow. -/
def dictMerge (a b : Headers) : Headers :=
  a.map (fun p => (p.1, (List.lookup p.1 b).getD p.2))
    ++ b.filter (fun q => (List.lookup q.1 a).isNone)

/-- The merged header set `final_headers` computed inside `connect` from
the stored caller headers. -/
def finalHeaders (caller : Headers) : Headers := dictMerge default_headers caller

/-- Model of `WebSocketClient.connect(url, headers, ssl_context)`.  Stores the
connection parameters (before the open attempt, inside the `try` block),
merges headers, attempts the transport open; on success sets the handle,
the connected flag and a zero attempt counter, dispatches `on_connect`
and starts the listener task, returning true; on an exception logs,
dispatches `on_error` with the cause and returns false. -/
def connect (s : ClientState) (url : String) (headers : Option Headers)
    (ssl : Option Nat) (tr : TransportResult) :
    ClientState × Bool × List Event :=
  let s1 := { s with url := some url, headers := some (headers.getD []),
                     ssl_context := ssl }
  let fh := finalHeaders (headers.getD [])
  match tr with
  | .opened h =>
    ({ s1 with websocket := some h, is_connected := true,
               reconnect_attempts := 0 },
     true,
     Event.transportOpen url fh ::
       ((if s1.hasOnConnect then [Event.callOnConnect] else []) ++
         [Event.listenerStarted]))
  | .failed e =>
    (s1, false,
     Event.transportOpen url fh ::
       (if s1.hasOnError then [Event.callOnError e] else []))

/-- Mark the stored handle (if any) as reported closed by the transport. -/
def markClosed (s : ClientState) : ClientState :=
  { s with websocket := s.websocket.map (fun h => { h with closed := true }) }

/-- Model of `WebSocketClient._attempt_reconnect`: increment the attempt counter,
wait the reconnect interval, and if a URL is stored (non-empty, Python
truthiness) call `connect` once with the stored parameters, logging on
failure.  A failed retry schedules nothing further. -/
def attemptReconnect (s : ClientState) (tr : TransportResult) :
    ClientState × List Event :=
  let s1 := { s with reconnect_attempts := s.reconnect_attempts + 1 }
  match s1.url with
  | none => (s1, [Event.sleepReconnectInterval])
  | some u =>
    if u.isEmpty then (s1, [Event.sleepReconnectInterval])
    else
      let r := connect s1 u s1.headers s1.ssl_context tr
      (r.1, Event.sleepReconnectInterval ::
        (r.2.2 ++ if r.2.1 then [] else [Event.logError]))

/-- The `except ConnectionClosed` path of
`WebSocketClient._message_listener`: the transport reports the handle
closed, the connected flag drops, `on_disconnect` is dispatched, and the
reconnect protocol runs only while the attempt counter is below the
maximum. -/
def handleClosed (s : ClientState) (tr : TransportResult) :
    ClientState × List Event :=
  let s1 := { markClosed s with is_connected := false }
  let ev1 := if s1.hasOnDisconnect then [Event.callOnDisconnect] else []
  if s1.reconnect_attempts < s1.max_reconnect_attempts then
    let r := attemptReconnect s1 tr
    (r.1, ev1 ++ r.2)
  else (s1, ev1)

/-- A message passed to `send`: Python `Union[str, dict]`. -/
inductive SendMsg where
  | text (s : String)
  | dict (m : List (String × PyValue))

/-- The wire text `send` produces: `json.dumps(message, ensure_ascii=False)`
for a dict, `str(message)` (the string itself) for text. -/
def sendPayload : SendMsg → String
  | .text s => s
  | .dict m => dumps (.dict m)

/-- Model of `WebSocketClient.send(message)`: refuse (false, log, no write) unless
connected with a handle; otherwise serialise and write, reporting a
transport write failure as false. -/
def send (s : ClientState) (m : SendMsg) (writeOk : Bool) :
    ClientState × Bool × List Event :=
  if !s.is_connected || s.websocket.isNone then
    (s, false, [Event.logError])
  else
    let data := sendPayload m
    if writeOk then (s, true, [Event.transportWrite data])
    else (s, false, [Event.transportWrite data, Event.logError])

/-- Model of `WebSocketClient.ping(data)`: false without effect unless connected
with a handle; otherwise send a ping and await the pong, false on timeout
or transport error. -/
def ping (s : ClientState) (pongOk : Bool) : ClientState × Bool × List Event :=
  if !s.is_connected || s.websocket.isNone then (s, false, [])
  else if pongOk then (s, true, [Event.pingSent])
  else (s, false, [Event.pingSent, Event.logError])

/-- Model of `WebSocketClient.close(code, reason)`: nothing at all without a
handle; otherwise drop the connected flag, cancel pending tasks and run
the close handshake, after which the transport reports the handle
closed.  The handle attribute itself is never cleared. -/
def close (s : ClientState) (code : Nat) (reason : String) :
    ClientState × List Event :=
  match s.websocket with
  | none => (s, [])
  | some h =>
    ({ s with is_connected := false, websocket := some { h with closed := true } },
     [Event.cancelTask, Event.closeHandshake code reason])

/-- The four connection states reported by `get_connection_state`. -/
inductive ConnState where
  | DISCONNECTED | CLOSED | OPEN | CONNECTING
deriving DecidableEq, Repr

/-- Model of `WebSocketClient.get_connection_state()`: DISCONNECTED without a
handle; CLOSED when the transport reports the handle closed; OPEN when
connected; CONNECTING otherwise. -/
def get_connection_state (s : ClientState) : ConnState :=
  match s.websocket with
  | none => .DISCONNECTED
  | some h =>
    if h.closed then .CLOSED
    else if s.is_connected then .OPEN
    else .CONNECTING

/-- Model of `WebSocketClient.is_connection_open()`: connected, with a handle the
transport does not report closed. -/
def is_connection_open (s : ClientState) : Bool :=
  match s.websocket with
  | none => false
  | some h => s.is_connected && !h.closed

/-- Outcome of one handler call: normal return or a raised exception. -/
inductive HandlerOutcome where
  | ok
  | raises (e : String)
deriving DecidableEq, Repr

/-- The unguarded handler call, which can raise. -/
def call_handler (o : HandlerOutcome) : Except String Unit :=
  match o with
  | .ok => .ok ()
  | .raises e => .error e

/-- Model of `WebSocketClient._safe_call_handler`: run the handler inside a
`try`; a raised exception is caught and logged, never propagated. -/
def safe_call_handler (s : ClientState) (o : HandlerOutcome) :
    ClientState × List Event :=
  match call_handler o with
  | .ok _ => (s, [])
  | .error _ => (s, [Event.logError])

/-- The value `_message_listener` hands to `_handle_message` for one
inbound frame: the JSON decode when it succeeds (possibly a value
outside the modelled fragment), the raw text otherwise. -/
def dispatchFrame (msg : String) : DecVal :=
  match loads msg with
  | some d => d
  | none => .exact (.str msg)

/-- One iteration of the listener loop on an inbound frame:
`_handle_message` dispatches the decoded-or-raw value to the registered
`on_message` handler through the guarded call. -/
def processFrame (s : ClientState) (msg : String)
    (onMsg : DecVal → HandlerOutcome) : ClientState × List Event :=
  let v := dispatchFrame msg
  if s.hasOnMessage then
    let r := safe_call_handler s (onMsg v)
    (r.1, Event.callOnMessage v :: r.2)
  else (s, [])

/-- The listener loop over a list of inbound frames. -/
def listenFrames (s : ClientState) (frames : List String)
    (onMsg : DecVal → HandlerOutcome) : ClientState × List Event :=
  match frames with
  | [] => (s, [])
  | f :: fs =>
    let r1 := processFrame s f onMsg
    let r2 := listenFrames r1.1 fs onMsg
    (r2.1, r1.2 ++ r2.2)

/-- The values delivered to `on_message` in an event trace. -/
def deliveredValues (evs : List Event) : List DecVal :=
  evs.filterMap (fun e => match e with
    | .callOnMessage v => some v
    | _ => none)

/-- The number of transport open attempts in an event trace. -/
def countOpens (evs : List Event) : Nat :=
  (evs.filter (fun e => match e with
    | .transportOpen _ _ => true
    | _ => false)).length

/-- One externally triggered operation on a client, with its transport
oracle. -/
inductive Op where
  | connectOp (url : String) (headers : Option Headers) (ssl : Option Nat)
      (tr : TransportResult)
  | closedOp (tr : TransportResult)
  | sendOp (m : SendMsg) (writeOk : Bool)
  | pingOp (pongOk : Bool)
  | closeOp (code : Nat) (reason : String)

/-- The state reached by one operation. -/
def applyOp (s : ClientState) : Op → ClientState
  | .connectOp u hs ssl tr => (connect s u hs ssl tr).1
  | .closedOp tr => (handleClosed s tr).1
  | .sendOp m w => (send s m w).1
  | .pingOp ok => (ping s ok).1
  | .closeOp c r => (close s c r).1

theorem skipWs_cons_of_not_ws {c : Char} (h : isJsonWs c = false) (l : List Char) :
    skipWs (c :: l) = c :: l := by
  simp [skipWs, h]

theorem valAux_append (acc : Nat) (l1 l2 : List Char) :
    valAux acc (l1 ++ l2) = valAux (valAux acc l1) l2 := by
  induction l1 generalizing acc with
  | nil => rfl
  | cons c cs ih => exact ih _

theorem decChar_toNat {d : Nat} (h : d < 10) : (decChar d).toNat = 48 + d := by
  interval_cases d <;> decide

theorem isDigitCh_decChar {d : Nat} (h : d < 10) : isDigitCh (decChar d) = true := by
  interval_cases d <;> decide

theorem natDigitsAux_digits :
    ∀ fuel n, n < fuel → ∀ c ∈ natDigitsAux fuel n, isDigitCh c = true := by
  intro fuel
  induction fuel with
  | zero => intro n h; omega
  | succ f ih =>
    intro n h c hc
    rw [natDigitsAux] at hc
    by_cases h10 : n < 10
    · rw [if_pos h10] at hc
      simp at hc
      subst hc
      exact isDigitCh_decChar h10
    · rw [if_neg h10] at hc
      rcases List.mem_append.1 hc with h1 | h2
      · exact ih (n / 10) (by omega) c h1
      · simp at h2
        subst h2
        exact isDigitCh_decChar (by omega)

theorem natDigitsAux_ne_nil :
    ∀ fuel n, n < fuel → natDigitsAux fuel n ≠ [] := by
  intro fuel
  induction fuel with
  | zero => intro n h; omega
  | succ f ih =>
    intro n h
    rw [natDigitsAux]
    by_cases h10 : n < 10
    · rw [if_pos h10]; simp
    · rw [if_neg h10]; simp

theorem valAux_natDigitsAux :
    ∀ fuel n acc, n < fuel →
      valAux acc (natDigitsAux fuel n) = acc * 10 ^ (natDigitsAux fuel n).length + n := by
  intro fuel
  induction fuel with
  | zero => intro n acc h; omega
  | succ f ih =>
    intro n acc h
    rw [natDigitsAux]
    by_cases h10 : n < 10
    · rw [if_pos h10]
      have h1 : valAux acc [decChar n] = acc * 10 + ((decChar n).toNat - 48) := rfl
      rw [h1, decChar_toNat h10]
      simp only [List.length_singleton, pow_one]
      omega
    · rw [if_neg h10]
      rw [valAux_append]
      have hrec := ih (n / 10) acc (by omega)
      rw [hrec]
      have h2 : ∀ a : Nat, valAux a [decChar (n % 10)] = a * 10 + ((decChar (n % 10)).toNat - 48) :=
        fun a => rfl
      rw [h2, decChar_toNat (show n % 10 < 10 by omega)]
      have h3 : 48 + n % 10 - 48 = n % 10 := by omega
      rw [h3]
      simp only [List.length_append, List.length_singleton, pow_succ]
      have h4 : n / 10 * 10 + n % 10 = n := by omega
      calc (acc * 10 ^ (natDigitsAux f (n / 10)).length + n / 10) * 10 + n % 10
          = acc * (10 ^ (natDigitsAux f (n / 10)).length * 10) + (n / 10 * 10 + n % 10) := by
            ring
        _ = acc * (10 ^ (natDigitsAux f (n / 10)).length * 10) + n := by rw [h4]

theorem digitsVal_natDigits (n : Nat) : digitsVal (natDigits n) = n := by
  have := valAux_natDigitsAux (n + 1) n 0 (by omega)
  simpa [digitsVal, natDigits] using this

theorem natDigits_digits (n : Nat) : ∀ c ∈ natDigits n, isDigitCh c = true :=
  natDigitsAux_digits (n + 1) n (by omega)

theorem natDigits_ne_nil (n : Nat) : natDigits n ≠ [] :=
  natDigitsAux_ne_nil (n + 1) n (by omega)

theorem takeDigits_append {ds rest : List Char}
    (hds : ∀ c ∈ ds, isDigitCh c = true) (hrest : noDigitHead rest = true) :
    takeDigits (ds ++ rest) = (ds, rest) := by
  induction ds with
  | nil =>
    cases rest with
    | nil => rfl
    | cons c t =>
      simp [noDigitHead] at hrest
      simp [takeDigits, hrest]
  | cons c t ih =>
    have hc : isDigitCh c = true := hds c (by simp)
    have ht : ∀ x ∈ t, isDigitCh x = true := fun x hx => hds x (by simp [hx])
    simp [takeDigits, hc, ih ht]

theorem hexVal_hexChar {m : Nat} (h : m < 16) : hexVal (hexChar m) = some m := by
  interval_cases m <;> decide

theorem psb_quote (l : List Char) :
    parseStringBody ('"' :: l) = some (.exact [], l) := by
  rw [parseStringBody.eq_def]
  rfl

theorem psb_plain {c : Char} (h1 : c ≠ '"') (h2 : c ≠ '\\') (h3 : 32 ≤ c.toNat)
    (l : List Char) :
    parseStringBody (c :: l) = consStr c (parseStringBody l) := by
  rw [parseStringBody.eq_def]
  change (if c = '"' then some (.exact [], l)
    else if c = '\\' then parseEscape l
    else if c.toNat < 32 then none
    else consStr c (parseStringBody l)) = _
  rw [if_neg h1, if_neg h2, if_neg (by omega : ¬ c.toNat < 32)]

theorem psb_escape {e d : Char} (he : e ≠ 'u') (hd : unescape e = some d)
    (l : List Char) :
    parseStringBody ('\\' :: e :: l) = consStr d (parseStringBody l) := by
  have h1 : parseStringBody ('\\' :: e :: l) = parseEscape (e :: l) := by
    rw [parseStringBody.eq_def]
    rfl
  rw [h1, parseEscape.eq_def]
  change (if e = 'u' then parseUnicode l
    else match unescape e with
      | some d => consStr d (parseStringBody l)
      | none => none) = _
  rw [if_neg he, hd]

theorem psb_unicode {hi lo : Nat} (hhi : hi < 16) (hlo : lo < 16) (l : List Char) :
    parseStringBody ('\\' :: 'u' :: '0' :: '0' :: hexChar hi :: hexChar lo :: l) =
      consStr (Char.ofNat (hi * 16 + lo)) (parseStringBody l) := by
  have h1 : parseStringBody ('\\' :: 'u' :: '0' :: '0' :: hexChar hi :: hexChar lo :: l)
      = parseUnicode ('0' :: '0' :: hexChar hi :: hexChar lo :: l) := by
    rw [parseStringBody.eq_def]
    change parseEscape ('u' :: '0' :: '0' :: hexChar hi :: hexChar lo :: l) = _
    rw [parseEscape.eq_def]
    rfl
  rw [h1, parseUnicode.eq_def]
  change (match hexVal '0', hexVal '0', hexVal (hexChar hi), hexVal (hexChar lo) with
    | some a, some b, some c2, some d =>
      let n := ((a * 16 + b) * 16 + c2) * 16 + d
      if n < 55296 ∨ 57343 < n then consStr (Char.ofNat n) (parseStringBody l)
      else if 56320 ≤ n then markApprox (parseStringBody l)
      else parseSurChain n l
    | _, _, _, _ => none) = _
  rw [show hexVal '0' = some 0 from rfl, hexVal_hexChar hhi, hexVal_hexChar hlo]
  change (if ((0 * 16 + 0) * 16 + hi) * 16 + lo < 55296 ∨
        57343 < ((0 * 16 + 0) * 16 + hi) * 16 + lo then
      consStr (Char.ofNat (((0 * 16 + 0) * 16 + hi) * 16 + lo)) (parseStringBody l)
    else if 56320 ≤ ((0 * 16 + 0) * 16 + hi) * 16 + lo then markApprox (parseStringBody l)
      else parseSurChain (((0 * 16 + 0) * 16 + hi) * 16 + lo) l) = _
  have hv : ((0 * 16 + 0) * 16 + hi) * 16 + lo < 55296 ∨
      57343 < ((0 * 16 + 0) * 16 + hi) * 16 + lo := by
    left
    omega
  rw [if_pos hv]
  have he2 : ((0 * 16 + 0) * 16 + hi) * 16 + lo = hi * 16 + lo := by omega
  rw [he2]

theorem parseStringBody_escChars (cs rest : List Char) :
    parseStringBody (escChars cs ++ '"' :: rest) = some (.exact cs, rest) := by
  induction cs with
  | nil => simpa [escChars] using psb_quote rest
  | cons c t ih =>
    have hstep : escChars (c :: t) = escapeChar c ++ escChars t := rfl
    rw [hstep, List.append_assoc]
    by_cases h1 : c = '"'
    · subst h1
      rw [show escapeChar '"' = ['\\', '"'] from rfl]
      rw [show (['\\', '"'] : List Char) ++ (escChars t ++ '"' :: rest)
            = '\\' :: '"' :: (escChars t ++ '"' :: rest) from rfl]
      rw [psb_escape (by decide) (by decide : unescape '"' = some '"'), ih]
      rfl
    · by_cases h2 : c = '\\'
      · subst h2
        rw [show escapeChar '\\' = ['\\', '\\'] from rfl]
        rw [show (['\\', '\\'] : List Char) ++ (escChars t ++ '"' :: rest)
              = '\\' :: '\\' :: (escChars t ++ '"' :: rest) from rfl]
        rw [psb_escape (by decide) (by decide : unescape '\\' = some '\\'), ih]
        rfl
      · by_cases h3 : c = '\x08'
        · subst h3
          rw [show escapeChar '\x08' = ['\\', 'b'] from rfl]
          rw [show (['\\', 'b'] : List Char) ++ (escChars t ++ '"' :: rest)
                = '\\' :: 'b' :: (escChars t ++ '"' :: rest) from rfl]
          rw [psb_escape (by decide) (by decide : unescape 'b' = some '\x08'), ih]
          rfl
        · by_cases h4 : c = '\x0c'
          · subst h4
            rw [show escapeChar '\x0c' = ['\\', 'f'] from rfl]
            rw [show (['\\', 'f'] : List Char) ++ (escChars t ++ '"' :: rest)
                  = '\\' :: 'f' :: (escChars t ++ '"' :: rest) from rfl]
            rw [psb_escape (by decide) (by decide : unescape 'f' = some '\x0c'), ih]
            rfl
          · by_cases h5 : c = '\n'
            · subst h5
              rw [show escapeChar '\n' = ['\\', 'n'] from rfl]
              rw [show (['\\', 'n'] : List Char) ++ (escChars t ++ '"' :: rest)
                    = '\\' :: 'n' :: (escChars t ++ '"' :: rest) from rfl]
              rw [psb_escape (by decide) (by decide : unescape 'n' = some '\n'), ih]
              rfl
            · by_cases h6 : c = '\r'
              · subst h6
                rw [show escapeChar '\r' = ['\\', 'r'] from rfl]
                rw [show (['\\', 'r'] : List Char) ++ (escChars t ++ '"' :: rest)
                      = '\\' :: 'r' :: (escChars t ++ '"' :: rest) from rfl]
                rw [psb_escape (by decide) (by decide : unescape 'r' = some '\r'), ih]
                rfl
              · by_cases h7 : c = '\t'
                · subst h7
                  rw [show escapeChar '\t' = ['\\', 't'] from rfl]
                  rw [show (['\\', 't'] : List Char) ++ (escChars t ++ '"' :: rest)
                        = '\\' :: 't' :: (escChars t ++ '"' :: rest) from rfl]
                  rw [psb_escape (by decide) (by decide : unescape 't' = some '\t'), ih]
                  rfl
                · by_cases h8 : c.toNat < 32
                  · have hesc : escapeChar c =
                        ['\\', 'u', '0', '0', hexChar (c.toNat / 16), hexChar (c.toNat % 16)] := by
                      rw [escapeChar]
                      rw [if_neg h1, if_neg h2, if_neg h3, if_neg h4, if_neg h5, if_neg h6,
                        if_neg h7, if_pos h8]
                    rw [hesc]
                    rw [show (['\\', 'u', '0', '0', hexChar (c.toNat / 16),
                          hexChar (c.toNat % 16)] : List Char) ++ (escChars t ++ '"' :: rest)
                          = '\\' :: 'u' :: '0' :: '0' :: hexChar (c.toNat / 16) ::
                            hexChar (c.toNat % 16) :: (escChars t ++ '"' :: rest) from rfl]
                    rw [psb_unicode (by omega) (by omega), ih]
                    have hcn : c.toNat / 16 * 16 + c.toNat % 16 = c.toNat := by omega
                    rw [hcn, Char.ofNat_toNat]
                    rfl
                  · have hesc : escapeChar c = [c] := by
                      rw [escapeChar]
                      rw [if_neg h1, if_neg h2, if_neg h3, if_neg h4, if_neg h5, if_neg h6,
                        if_neg h7, if_neg h8]
                    rw [hesc]
                    rw [show ([c] : List Char) ++ (escChars t ++ '"' :: rest)
                          = c :: (escChars t ++ '"' :: rest) from rfl]
                    rw [psb_plain h1 h2 (by omega), ih]
                    rfl

theorem digit_facts {c : Char} (h : isDigitCh c = true) :
    c ≠ '-' ∧ c ≠ '"' ∧ c ≠ 'f' ∧ c ≠ 't' ∧ c ≠ 'n' ∧
      isJsonWs c = false ∧ c ≠ ']' ∧ c ≠ '\x7d' ∧ c ≠ 'N' ∧ c ≠ 'I' := by
  have hn : 48 ≤ c.toNat ∧ c.toNat ≤ 57 := by simpa [isDigitCh] using h
  refine ⟨?a1, ?a2, ?a3, ?a4, ?a5, ?a6, ?a7, ?a8, ?a9, ?a10⟩
  · intro he; subst he; exact absurd hn (by decide)
  · intro he; subst he; exact absurd hn (by decide)
  · intro he; subst he; exact absurd hn (by decide)
  · intro he; subst he; exact absurd hn (by decide)
  · intro he; subst he; exact absurd hn (by decide)
  · have w1 : c ≠ ' ' := fun he => by subst he; exact absurd hn (by decide)
    have w2 : c ≠ '\t' := fun he => by subst he; exact absurd hn (by decide)
    have w3 : c ≠ '\n' := fun he => by subst he; exact absurd hn (by decide)
    have w4 : c ≠ '\r' := fun he => by subst he; exact absurd hn (by decide)
    simp [isJsonWs, w1, w2, w3, w4]
  · intro he; subst he; exact absurd hn (by decide)
  · intro he; subst he; exact absurd hn (by decide)
  · intro he; subst he; exact absurd hn (by decide)
  · intro he; subst he; exact absurd hn (by decide)

theorem dumpsV_head (v : PyValue) :
    ∃ c cs, dumpsV v = c :: cs ∧ isJsonWs c = false ∧ c ≠ ']' ∧ c ≠ '\x7d' := by
  cases v with
  | int n =>
    rw [show dumpsV (.int n) = intChars n from rfl, intChars]
    by_cases hn : n < 0
    · rw [if_pos hn]
      refine ⟨'-', _, rfl, ?_, ?_, ?_⟩ <;> decide
    · rw [if_neg hn]
      obtain ⟨c, cs, hcs⟩ := List.exists_cons_of_ne_nil (natDigits_ne_nil n.toNat)
      have hd : isDigitCh c = true := natDigits_digits n.toNat c (by rw [hcs]; simp)
      obtain ⟨-, -, -, -, -, w1, w2, w3, -, -⟩ := digit_facts hd
      exact ⟨c, cs, hcs, w1, w2, w3⟩
  | bool b =>
    cases b with
    | false => refine ⟨'f', _, rfl, ?_, ?_, ?_⟩ <;> decide
    | true => refine ⟨'t', _, rfl, ?_, ?_, ?_⟩ <;> decide
  | null => refine ⟨'n', _, rfl, ?_, ?_, ?_⟩ <;> decide
  | str s => refine ⟨'"', _, rfl, ?_, ?_, ?_⟩ <;> decide
  | list xs => refine ⟨'[', _, rfl, ?_, ?_, ?_⟩ <;> decide
  | dict m => refine ⟨'\x7b', _, rfl, ?_, ?_, ?_⟩ <;> decide

theorem dumpsV_length_pos (v : PyValue) : 1 ≤ (dumpsV v).length := by
  obtain ⟨c, cs, hcs, -⟩ := dumpsV_head v
  rw [hcs]
  simp

theorem skipWs_dumpsV (v : PyValue) (r : List Char) :
    skipWs (dumpsV v ++ r) = dumpsV v ++ r := by
  obtain ⟨c, cs, hcs, hws, -⟩ := dumpsV_head v
  rw [hcs, List.cons_append, skipWs_cons_of_not_ws hws]

theorem pValue_succ (g : Nat) (c : Char) (l : List Char) :
    pValue (g + 1) (c :: l) =
      (if c = 'n' then expectNull l
      else if c = 't' then expectTrue l
      else if c = 'f' then expectFalse l
      else if c = 'N' then expectNaN l
      else if c = 'I' then expectInf l
      else if c = '"' then strResult (parseStringBody l)
      else if c = '-' then parseNeg l
      else if isDigitCh c then parseNumber false (c :: l)
      else if c = '[' then pArr g l
      else if c = '\x7b' then pObj g l
      else none) := by
  rw [pValue.eq_def]

theorem pArr_succ (g : Nat) (l : List Char) :
    pArr (g + 1) l =
      (match skipWs l with
      | [] => none
      | c :: cs =>
        if c = ']' then some (.exact (.list []), cs) else pArrMore g (c :: cs)) := by
  rw [pArr.eq_def]

theorem pArr_step {l : List Char} {c : Char} {cs : List Char} (g : Nat)
    (hsw : skipWs l = c :: cs) :
    pArr (g + 1) l =
      if c = ']' then some (.exact (.list []), cs) else pArrMore g (c :: cs) := by
  rw [pArr_succ, hsw]

theorem pArrMore_succ (g : Nat) (l : List Char) :
    pArrMore (g + 1) l =
      (match pValue g (skipWs l) with
      | none => none
      | some (d, r) => pAfterItem g d r) := by
  rw [pArrMore.eq_def]

theorem pArrMore_step {l : List Char} {d : DecVal} {r : List Char} (g : Nat)
    (hv : pValue g (skipWs l) = some (d, r)) :
    pArrMore (g + 1) l = pAfterItem g d r := by
  rw [pArrMore_succ, hv]

theorem pAfterItem_succ (g : Nat) (d : DecVal) (r : List Char) :
    pAfterItem (g + 1) d r =
      (match skipWs r with
      | [] => none
      | c :: r2 =>
        if c = ',' then
          match pArrMore g r2 with
          | some q => some (consItem d q.1, q.2)
          | none => none
        else if c = ']' then some (singleItem d, r2)
        else none) := by
  rw [pAfterItem.eq_def]

theorem pAfterItem_step {r : List Char} {c : Char} {r2 : List Char} (g : Nat)
    (d : DecVal) (hsw : skipWs r = c :: r2) :
    pAfterItem (g + 1) d r =
      (if c = ',' then
        match pArrMore g r2 with
        | some q => some (consItem d q.1, q.2)
        | none => none
      else if c = ']' then some (singleItem d, r2)
      else none) := by
  rw [pAfterItem_succ, hsw]

theorem pObj_succ (g : Nat) (l : List Char) :
    pObj (g + 1) l =
      (match skipWs l with
      | [] => none
      | c :: cs =>
        if c = '\x7d' then some (.exact (.dict []), cs) else pObjMore g (c :: cs)) := by
  rw [pObj.eq_def]

theorem pObj_step {l : List Char} {c : Char} {cs : List Char} (g : Nat)
    (hsw : skipWs l = c :: cs) :
    pObj (g + 1) l =
      if c = '\x7d' then some (.exact (.dict []), cs) else pObjMore g (c :: cs) := by
  rw [pObj_succ, hsw]

theorem pObjMore_succ (g : Nat) (l : List Char) :
    pObjMore (g + 1) l =
      (match skipWs l with
      | [] => none
      | c :: cs => if c = '"' then pMember g cs else none) := by
  rw [pObjMore.eq_def]

theorem pObjMore_step {l : List Char} {c : Char} {cs : List Char} (g : Nat)
    (hsw : skipWs l = c :: cs) :
    pObjMore (g + 1) l = if c = '"' then pMember g cs else none := by
  rw [pObjMore_succ, hsw]

theorem pMember_succ (g : Nat) (cs : List Char) :
    pMember (g + 1) cs =
      (match parseStringBody cs with
      | none => none
      | some (sk, r1) => pMemberColon g sk r1) := by
  rw [pMember.eq_def]

theorem pMember_step {cs : List Char} {sk : SBody} {r1 : List Char} (g : Nat)
    (hp : parseStringBody cs = some (sk, r1)) :
    pMember (g + 1) cs = pMemberColon g sk r1 := by
  rw [pMember_succ, hp]

theorem pMemberColon_succ (g : Nat) (sk : SBody) (r1 : List Char) :
    pMemberColon (g + 1) sk r1 =
      (match skipWs r1 with
      | [] => none
      | c :: r2 => if c = ':' then pMemberValue g sk r2 else none) := by
  rw [pMemberColon.eq_def]

theorem pMemberColon_step {r1 : List Char} {c : Char} {r2 : List Char} (g : Nat)
    (sk : SBody) (hsw : skipWs r1 = c :: r2) :
    pMemberColon (g + 1) sk r1 = if c = ':' then pMemberValue g sk r2 else none := by
  rw [pMemberColon_succ, hsw]

theorem pMemberValue_succ (g : Nat) (sk : SBody) (r2 : List Char) :
    pMemberValue (g + 1) sk r2 =
      (match pValue g (skipWs r2) with
      | none => none
      | some (d, r3) => pMemberAfter g sk d r3) := by
  rw [pMemberValue.eq_def]

theorem pMemberValue_step {r2 : List Char} {d : DecVal} {r3 : List Char} (g : Nat)
    (sk : SBody) (hv : pValue g (skipWs r2) = some (d, r3)) :
    pMemberValue (g + 1) sk r2 = pMemberAfter g sk d r3 := by
  rw [pMemberValue_succ, hv]

theorem pMemberAfter_succ (g : Nat) (sk : SBody) (d : DecVal) (r3 : List Char) :
    pMemberAfter (g + 1) sk d r3 =
      (match skipWs r3 with
      | [] => none
      | c :: r4 =>
        if c = ',' then
          match pObjMore g r4 with
          | some q => some (consMember sk d q.1, q.2)
          | none => none
        else if c = '\x7d' then some (singleMember sk d, r4)
        else none) := by
  rw [pMemberAfter.eq_def]

theorem pMemberAfter_step {r3 : List Char} {c : Char} {r4 : List Char} (g : Nat)
    (sk : SBody) (d : DecVal) (hsw : skipWs r3 = c :: r4) :
    pMemberAfter (g + 1) sk d r3 =
      (if c = ',' then
        match pObjMore g r4 with
        | some q => some (consMember sk d q.1, q.2)
        | none => none
      else if c = '\x7d' then some (singleMember sk d, r4)
      else none) := by
  rw [pMemberAfter_succ, hsw]

theorem skipWs_cons_of_ws {c : Char} (h : isJsonWs c = true) (l : List Char) :
    skipWs (c :: l) = skipWs l := by
  simp [skipWs, h]

theorem skipWs_strChars (k : String) (r : List Char) :
    skipWs (strChars k ++ r) = strChars k ++ r := by
  rw [show strChars k = '"' :: (escChars k.data ++ ['"']) from rfl]
  rw [List.cons_append, skipWs_cons_of_not_ws (by decide)]

theorem len_dumpsV_list (xs : List PyValue) :
    (dumpsV (.list xs)).length = (dumpsList xs).length + 2 := by
  rw [show dumpsV (.list xs) = '[' :: dumpsList xs ++ [']'] from rfl]
  simp

theorem len_dumpsV_dict (m : List (String × PyValue)) :
    (dumpsV (.dict m)).length = (dumpsDict m).length + 2 := by
  rw [show dumpsV (.dict m) = '\x7b' :: dumpsDict m ++ ['\x7d'] from rfl]
  simp

theorem len_dumpsList_cons (x : PyValue) (xs : List PyValue) :
    (dumpsList (x :: xs)).length = (dumpsV x).length + (dumpsListTail xs).length := by
  rw [show dumpsList (x :: xs) = dumpsV x ++ dumpsListTail xs from rfl]
  simp

theorem len_dumpsListTail_cons (y : PyValue) (ys : List PyValue) :
    (dumpsListTail (y :: ys)).length = 2 + (dumpsV y).length + (dumpsListTail ys).length := by
  rw [show dumpsListTail (y :: ys) = ',' :: ' ' :: dumpsV y ++ dumpsListTail ys from rfl]
  simp
  omega

theorem len_strChars (k : String) :
    (strChars k).length = (escChars k.data).length + 2 := by
  rw [show strChars k = '"' :: (escChars k.data ++ ['"']) from rfl]
  simp

theorem len_dumpsDict_cons (k : String) (v : PyValue) (m : List (String × PyValue)) :
    (dumpsDict ((k, v) :: m)).length =
      (strChars k).length + 2 + (dumpsV v).length + (dumpsDictTail m).length := by
  rw [show dumpsDict ((k, v) :: m) = strChars k ++ ':' :: ' ' :: dumpsV v ++ dumpsDictTail m
    from rfl]
  simp
  omega

theorem len_dumpsDictTail_cons (k : String) (v : PyValue) (m : List (String × PyValue)) :
    (dumpsDictTail ((k, v) :: m)).length =
      2 + (strChars k).length + 2 + (dumpsV v).length + (dumpsDictTail m).length := by
  rw [show dumpsDictTail ((k, v) :: m)
      = ',' :: ' ' :: strChars k ++ ':' :: ' ' :: dumpsV v ++ dumpsDictTail m from rfl]
  simp
  omega

theorem nb_listTail (xs : List PyValue) (r : List Char) :
    numBoundary (dumpsListTail xs ++ ']' :: r) = true := by
  cases xs with
  | nil => rfl
  | cons y ys => rfl

theorem nb_dictTail (m : List (String × PyValue)) (r : List Char) :
    numBoundary (dumpsDictTail m ++ '\x7d' :: r) = true := by
  cases m with
  | nil => rfl
  | cons p m2 =>
    obtain ⟨a, b⟩ := p
    rfl

theorem numBoundary_facts {c : Char} {t : List Char}
    (h : numBoundary (c :: t) = true) :
    isDigitCh c = false ∧ c ≠ '.' ∧ c ≠ 'e' ∧ c ≠ 'E' := by
  simp only [numBoundary, Bool.not_eq_eq_eq_not, Bool.not_true,
    Bool.or_eq_false_iff, decide_eq_false_iff_not] at h
  exact ⟨h.1.1.1, h.1.1.2, h.1.2, h.2⟩

theorem numBoundary_ndh {l : List Char} (h : numBoundary l = true) :
    noDigitHead l = true := by
  cases l with
  | nil => rfl
  | cons c t =>
    obtain ⟨h1, -, -, -⟩ := numBoundary_facts h
    simp [noDigitHead, h1]

theorem parseFrac_boundary {l : List Char} (h : numBoundary l = true) :
    parseFrac l = none := by
  cases l with
  | nil => rfl
  | cons c t =>
    obtain ⟨-, h2, -, -⟩ := numBoundary_facts h
    have : parseFrac (c :: t) =
        (if c = '.' then
          (if (takeDigits t).1.isEmpty then none else some (takeDigits t).2)
        else none) := rfl
    rw [this, if_neg h2]

theorem parseExp_boundary {l : List Char} (h : numBoundary l = true) :
    parseExp l = none := by
  cases l with
  | nil => rfl
  | cons c t =>
    obtain ⟨-, -, h3, h4⟩ := numBoundary_facts h
    have : parseExp (c :: t) =
        (if c = 'e' ∨ c = 'E' then parseExpSign t else none) := rfl
    rw [this, if_neg (by rintro (he | hE); exact h3 he; exact h4 hE)]

theorem numAfterInt_boundary (neg : Bool) (n : Nat) {rest : List Char}
    (hb : numBoundary rest = true) :
    numAfterInt neg n rest =
      some (.exact (.int (if neg then -(Int.ofNat n) else Int.ofNat n)), rest) := by
  unfold numAfterInt
  rw [parseFrac_boundary hb, parseExp_boundary hb]

theorem natDigitsAux_head_ne_zero :
    ∀ fuel n, 1 ≤ n → n < fuel →
      ∀ c, (natDigitsAux fuel n).head? = some c → c ≠ '0' := by
  intro fuel
  induction fuel with
  | zero => intro n h1 h2; omega
  | succ f ih =>
    intro n h1 h2 c hc
    rw [natDigitsAux] at hc
    by_cases h10 : n < 10
    · rw [if_pos h10] at hc
      simp at hc
      subst hc
      interval_cases n <;> decide
    · rw [if_neg h10] at hc
      obtain ⟨c1, cs1, hcs1⟩ :=
        List.exists_cons_of_ne_nil (natDigitsAux_ne_nil f (n / 10) (by omega))
      rw [hcs1] at hc
      simp at hc
      subst hc
      exact ih (n / 10) (by omega) (by omega) c1 (by rw [hcs1]; rfl)

theorem natDigits_head_ne_zero {n : Nat} (h : 1 ≤ n) {c : Char} {cs : List Char}
    (hcs : natDigits n = c :: cs) : c ≠ '0' :=
  natDigitsAux_head_ne_zero (n + 1) n h (by omega) c (by rw [natDigits] at hcs; rw [hcs]; rfl)

theorem parseNumber_cons (neg : Bool) (c : Char) (l : List Char) :
    parseNumber neg (c :: l) =
      (if c = '0' then numAfterInt neg 0 l
      else if isDigitCh c then
        numAfterInt neg (digitsVal (takeDigits (c :: l)).1) (takeDigits (c :: l)).2
      else none) := rfl

theorem parseNumber_digits (neg : Bool) (q : Nat) {rest : List Char}
    (hb : numBoundary rest = true) :
    parseNumber neg (natDigits q ++ rest)
      = some (.exact (.int (if neg then -(Int.ofNat q) else Int.ofNat q)), rest) := by
  by_cases hq : q = 0
  · subst hq
    rw [show natDigits 0 = ['0'] from rfl]
    rw [show (['0'] : List Char) ++ rest = '0' :: rest from rfl]
    rw [parseNumber_cons, if_pos rfl]
    exact numAfterInt_boundary neg 0 hb
  · obtain ⟨c, cs, hcs⟩ := List.exists_cons_of_ne_nil (natDigits_ne_nil q)
    have hd : isDigitCh c = true := natDigits_digits q c (by rw [hcs]; simp)
    have hc0 : c ≠ '0' := natDigits_head_ne_zero (by omega) hcs
    rw [hcs, List.cons_append, parseNumber_cons, if_neg hc0, if_pos hd]
    rw [show c :: (cs ++ rest) = (c :: cs) ++ rest from rfl, ← hcs]
    rw [takeDigits_append (natDigits_digits q) (numBoundary_ndh hb)]
    have hval : digitsVal ((natDigits q, rest) : List Char × List Char).1 = q :=
      digitsVal_natDigits q
    rw [hval]
    exact numAfterInt_boundary neg q hb

theorem parseNeg_cons (c : Char) (l : List Char) :
    parseNeg (c :: l) =
      (if isDigitCh c then parseNumber true (c :: l)
      else if c = 'I' then expectInf l
      else none) := rfl

theorem parse_complete : ∀ f : Nat,
    (∀ v rest, 2 * (dumpsV v).length ≤ f → numBoundary rest = true →
      pValue f (dumpsV v ++ rest) = some (.exact v, rest)) ∧
    (∀ xs rest, 2 * (dumpsList xs).length + 2 ≤ f →
      pArr f (dumpsList xs ++ ']' :: rest) = some (.exact (.list xs), rest)) ∧
    (∀ x xs rest l, skipWs l = dumpsV x ++ dumpsListTail xs ++ ']' :: rest →
      2 * ((dumpsV x).length + (dumpsListTail xs).length) + 1 ≤ f →
      pArrMore f l = some (.exact (.list (x :: xs)), rest)) ∧
    (∀ v xs rest, 2 * (dumpsListTail xs).length + 2 ≤ f →
      pAfterItem f (.exact v) (dumpsListTail xs ++ ']' :: rest)
        = some (.exact (.list (v :: xs)), rest)) ∧
    (∀ m rest, 2 * (dumpsDict m).length + 3 ≤ f →
      pObj f (dumpsDict m ++ '\x7d' :: rest) = some (.exact (.dict m), rest)) ∧
    (∀ k v m rest l,
      skipWs l = strChars k ++ ':' :: ' ' :: dumpsV v ++ dumpsDictTail m ++ '\x7d' :: rest →
      2 * ((strChars k).length + 2 + (dumpsV v).length + (dumpsDictTail m).length) + 2 ≤ f →
      pObjMore f l = some (.exact (.dict ((k, v) :: m)), rest)) ∧
    (∀ k v m rest,
      2 * ((strChars k).length + 2 + (dumpsV v).length + (dumpsDictTail m).length) + 1 ≤ f →
      pMember f
        (escChars k.data ++ '"' :: ':' :: ' ' :: dumpsV v ++ dumpsDictTail m ++ '\x7d' :: rest)
        = some (.exact (.dict ((k, v) :: m)), rest)) ∧
    (∀ (k : String) v m rest,
      2 * ((dumpsV v).length + (dumpsDictTail m).length) + 2 ≤ f →
      pMemberColon f (.exact k.data)
        (':' :: ' ' :: dumpsV v ++ dumpsDictTail m ++ '\x7d' :: rest)
        = some (.exact (.dict ((k, v) :: m)), rest)) ∧
    (∀ (k : String) v m rest,
      2 * ((dumpsV v).length + (dumpsDictTail m).length) + 1 ≤ f →
      pMemberValue f (.exact k.data)
        (' ' :: dumpsV v ++ dumpsDictTail m ++ '\x7d' :: rest)
        = some (.exact (.dict ((k, v) :: m)), rest)) ∧
    (∀ (k : String) (v : PyValue) m rest, 2 * (dumpsDictTail m).length + 2 ≤ f →
      pMemberAfter f (.exact k.data) (.exact v) (dumpsDictTail m ++ '\x7d' :: rest)
        = some (.exact (.dict ((k, v) :: m)), rest)) := by
  intro f
  induction f with
  | zero =>
    refine ⟨?z1, ?z2, ?z3, ?z4, ?z5, ?z6, ?z7, ?z8, ?z9, ?z10⟩
    · intro v rest h hr
      have := dumpsV_length_pos v
      omega
    · intro xs rest h
      omega
    · intro x xs rest l hsw h
      omega
    · intro v xs rest h
      omega
    · intro m rest h
      omega
    · intro k v m rest l hsw h
      omega
    · intro k v m rest h
      omega
    · intro k v m rest h
      omega
    · intro k v m rest h
      omega
    · intro k v m rest h
      omega
  | succ g ih =>
    obtain ⟨IH1, IH2, IH3, IH4, IH5, IH6, IH7, IH8, IH9, IH10⟩ := ih
    refine ⟨?s1, ?s2, ?s3, ?s4, ?s5, ?s6, ?s7, ?s8, ?s9, ?s10⟩
    · -- pValue
      intro v rest hf hnd
      cases v with
      | null =>
        rw [show dumpsV .null ++ rest = 'n' :: 'u' :: 'l' :: 'l' :: rest from rfl]
        rw [pValue_succ]
        rfl
      | bool b =>
        cases b with
        | true =>
          rw [show dumpsV (.bool true) ++ rest = 't' :: 'r' :: 'u' :: 'e' :: rest from rfl]
          rw [pValue_succ]
          rfl
        | false =>
          rw [show dumpsV (.bool false) ++ rest
              = 'f' :: 'a' :: 'l' :: 's' :: 'e' :: rest from rfl]
          rw [pValue_succ]
          rfl
      | int n =>
        rw [show dumpsV (.int n) = intChars n from rfl, intChars]
        by_cases hn : n < 0
        · rw [if_pos hn, List.cons_append, pValue_succ]
          rw [if_neg (by decide : ¬ ('-' : Char) = 'n'),
            if_neg (by decide : ¬ ('-' : Char) = 't'),
            if_neg (by decide : ¬ ('-' : Char) = 'f'),
            if_neg (by decide : ¬ ('-' : Char) = 'N'),
            if_neg (by decide : ¬ ('-' : Char) = 'I'),
            if_neg (by decide : ¬ ('-' : Char) = '"'),
            if_pos rfl]
          obtain ⟨c, cs, hcs⟩ := List.exists_cons_of_ne_nil (natDigits_ne_nil n.natAbs)
          have hd : isDigitCh c = true := natDigits_digits n.natAbs c (by rw [hcs]; simp)
          rw [hcs, List.cons_append, parseNeg_cons, if_pos hd]
          rw [show c :: (cs ++ rest) = (c :: cs) ++ rest from rfl, ← hcs]
          rw [parseNumber_digits true n.natAbs hnd]
          rw [if_pos rfl]
          have hv : -(Int.ofNat n.natAbs) = n := by
            simp only [Int.ofNat_eq_coe]
            omega
          rw [hv]
        · rw [if_neg hn]
          obtain ⟨c, cs, hcs⟩ := List.exists_cons_of_ne_nil (natDigits_ne_nil n.toNat)
          have hd : isDigitCh c = true := natDigits_digits n.toNat c (by rw [hcs]; simp)
          obtain ⟨w1, w2, w3, w4, w5, -, -, -, w6, w7⟩ := digit_facts hd
          rw [hcs, List.cons_append, pValue_succ]
          rw [if_neg w5, if_neg w4, if_neg w3, if_neg w6, if_neg w7, if_neg w2,
            if_neg w1, if_pos hd]
          rw [show c :: (cs ++ rest) = (c :: cs) ++ rest from rfl, ← hcs]
          rw [parseNumber_digits false n.toNat hnd]
          rw [if_neg (by decide : ¬ false = true)]
          have hv : Int.ofNat n.toNat = n := by
            simp only [Int.ofNat_eq_coe]
            omega
          rw [hv]
      | str s =>
        have hshape : dumpsV (.str s) ++ rest = '"' :: (escChars s.data ++ '"' :: rest) := by
          rw [show dumpsV (.str s) = '"' :: (escChars s.data ++ ['"']) from rfl]
          simp
        rw [hshape, pValue_succ]
        rw [if_neg (by decide : ¬ ('"' : Char) = 'n'),
          if_neg (by decide : ¬ ('"' : Char) = 't'),
          if_neg (by decide : ¬ ('"' : Char) = 'f'),
          if_neg (by decide : ¬ ('"' : Char) = 'N'),
          if_neg (by decide : ¬ ('"' : Char) = 'I'),
          if_pos rfl]
        rw [parseStringBody_escChars]
        rfl
      | list xs =>
        have hshape : dumpsV (.list xs) ++ rest = '[' :: (dumpsList xs ++ ']' :: rest) := by
          rw [show dumpsV (.list xs) = '[' :: dumpsList xs ++ [']'] from rfl]
          simp
        rw [hshape, pValue_succ]
        rw [if_neg (by decide : ¬ ('[' : Char) = 'n'),
          if_neg (by decide : ¬ ('[' : Char) = 't'),
          if_neg (by decide : ¬ ('[' : Char) = 'f'),
          if_neg (by decide : ¬ ('[' : Char) = 'N'),
          if_neg (by decide : ¬ ('[' : Char) = 'I'),
          if_neg (by decide : ¬ ('[' : Char) = '"'),
          if_neg (by decide : ¬ ('[' : Char) = '-'),
          if_neg (by decide : ¬ isDigitCh '[' = true),
          if_pos rfl]
        exact IH2 xs rest (by rw [len_dumpsV_list] at hf; omega)
      | dict m =>
        have hshape : dumpsV (.dict m) ++ rest = '\x7b' :: (dumpsDict m ++ '\x7d' :: rest) := by
          rw [show dumpsV (.dict m) = '\x7b' :: dumpsDict m ++ ['\x7d'] from rfl]
          simp
        rw [hshape, pValue_succ]
        rw [if_neg (by decide : ¬ ('\x7b' : Char) = 'n'),
          if_neg (by decide : ¬ ('\x7b' : Char) = 't'),
          if_neg (by decide : ¬ ('\x7b' : Char) = 'f'),
          if_neg (by decide : ¬ ('\x7b' : Char) = 'N'),
          if_neg (by decide : ¬ ('\x7b' : Char) = 'I'),
          if_neg (by decide : ¬ ('\x7b' : Char) = '"'),
          if_neg (by decide : ¬ ('\x7b' : Char) = '-'),
          if_neg (by decide : ¬ isDigitCh '\x7b' = true),
          if_neg (by decide : ¬ ('\x7b' : Char) = '['),
          if_pos rfl]
        exact IH5 m rest (by rw [len_dumpsV_dict] at hf; omega)
    · -- pArr
      intro xs rest hf
      cases xs with
      | nil =>
        rw [show dumpsList [] ++ ']' :: rest = ']' :: rest from rfl]
        rw [pArr_step g (skipWs_cons_of_not_ws (by decide) rest)]
        rw [if_pos rfl]
      | cons x xs =>
        obtain ⟨c, cs, hcs, hws, hne1, hne2⟩ := dumpsV_head x
        have hshape : dumpsList (x :: xs) ++ ']' :: rest
            = c :: (cs ++ (dumpsListTail xs ++ ']' :: rest)) := by
          rw [show dumpsList (x :: xs) = dumpsV x ++ dumpsListTail xs from rfl, hcs]
          simp
        rw [hshape]
        rw [pArr_step g (skipWs_cons_of_not_ws hws _)]
        rw [if_neg hne1]
        have hsw2 : skipWs (c :: (cs ++ (dumpsListTail xs ++ ']' :: rest)))
            = dumpsV x ++ dumpsListTail xs ++ ']' :: rest := by
          rw [skipWs_cons_of_not_ws hws, hcs]
          simp
        exact IH3 x xs rest _ hsw2 (by rw [len_dumpsList_cons] at hf; omega)
    · -- pArrMore
      intro x xs rest l hsw hf
      have h1 : pValue g (skipWs l) = some (.exact x, dumpsListTail xs ++ ']' :: rest) := by
        rw [hsw, List.append_assoc]
        exact IH1 x _ (by omega) (nb_listTail xs rest)
      rw [pArrMore_step g h1]
      exact IH4 x xs rest (by have := dumpsV_length_pos x; omega)
    · -- pAfterItem
      intro v xs rest hf
      cases xs with
      | nil =>
        rw [show dumpsListTail [] ++ ']' :: rest = ']' :: rest from rfl]
        rw [pAfterItem_step g (.exact v) (skipWs_cons_of_not_ws (by decide) rest)]
        rw [if_neg (by decide : ¬ (']' : Char) = ','), if_pos rfl]
        rfl
      | cons y ys =>
        have hshape : dumpsListTail (y :: ys) ++ ']' :: rest
            = ',' :: (' ' :: (dumpsV y ++ (dumpsListTail ys ++ ']' :: rest))) := by
          rw [show dumpsListTail (y :: ys) = ',' :: ' ' :: dumpsV y ++ dumpsListTail ys
            from rfl]
          simp
        rw [hshape, pAfterItem_step g (.exact v) (skipWs_cons_of_not_ws (by decide) _)]
        rw [if_pos rfl]
        have hsw3 : skipWs (' ' :: (dumpsV y ++ (dumpsListTail ys ++ ']' :: rest)))
            = dumpsV y ++ dumpsListTail ys ++ ']' :: rest := by
          rw [skipWs_cons_of_ws (by decide), skipWs_dumpsV]
          simp
        rw [IH3 y ys rest _ hsw3 (by rw [len_dumpsListTail_cons] at hf; omega)]
        rfl
    · -- pObj
      intro m rest hf
      cases m with
      | nil =>
        rw [show dumpsDict [] ++ '\x7d' :: rest = '\x7d' :: rest from rfl]
        rw [pObj_step g (skipWs_cons_of_not_ws (by decide) rest)]
        rw [if_pos rfl]
      | cons p m2 =>
        obtain ⟨k, v⟩ := p
        have hshape : dumpsDict ((k, v) :: m2) ++ '\x7d' :: rest
            = '"' :: ((escChars k.data ++ ['"'])
                ++ (':' :: ' ' :: dumpsV v ++ dumpsDictTail m2 ++ '\x7d' :: rest)) := by
          rw [show dumpsDict ((k, v) :: m2)
              = strChars k ++ ':' :: ' ' :: dumpsV v ++ dumpsDictTail m2 from rfl,
            show strChars k = '"' :: (escChars k.data ++ ['"']) from rfl]
          simp
        rw [hshape]
        rw [pObj_step g (skipWs_cons_of_not_ws (by decide) _)]
        rw [if_neg (by decide : ¬ ('"' : Char) = '\x7d')]
        have hsw2 : skipWs ('"' :: ((escChars k.data ++ ['"'])
              ++ (':' :: ' ' :: dumpsV v ++ dumpsDictTail m2 ++ '\x7d' :: rest)))
            = strChars k ++ ':' :: ' ' :: dumpsV v ++ dumpsDictTail m2 ++ '\x7d' :: rest := by
          rw [skipWs_cons_of_not_ws (by decide),
            show strChars k = '"' :: (escChars k.data ++ ['"']) from rfl]
          simp
        exact IH6 k v m2 rest _ hsw2 (by rw [len_dumpsDict_cons] at hf; omega)
    · -- pObjMore
      intro k v m rest l hsw hf
      have hsw' : skipWs l = '"' ::
          (escChars k.data ++ '"' :: ':' :: ' ' :: dumpsV v
            ++ dumpsDictTail m ++ '\x7d' :: rest) := by
        rw [hsw, show strChars k = '"' :: (escChars k.data ++ ['"']) from rfl]
        simp
      rw [pObjMore_step g hsw', if_pos rfl]
      exact IH7 k v m rest (by omega)
    · -- pMember
      intro k v m rest hf
      simp only [List.cons_append, List.append_assoc]
      rw [pMember_step g (parseStringBody_escChars k.data _)]
      have h8 := IH8 k v m rest (by rw [len_strChars] at hf; omega)
      simp only [List.cons_append, List.append_assoc] at h8
      exact h8
    · -- pMemberColon
      intro k v m rest hf
      simp only [List.cons_append, List.append_assoc]
      rw [pMemberColon_step g (.exact k.data) (skipWs_cons_of_not_ws (by decide) _),
        if_pos rfl]
      have h9 := IH9 k v m rest (by omega)
      simp only [List.cons_append, List.append_assoc] at h9
      exact h9
    · -- pMemberValue
      intro k v m rest hf
      simp only [List.cons_append, List.append_assoc]
      have h1 : pValue g (skipWs (' ' :: (dumpsV v ++ (dumpsDictTail m ++ '\x7d' :: rest))))
          = some (.exact v, dumpsDictTail m ++ '\x7d' :: rest) := by
        rw [skipWs_cons_of_ws (by decide), skipWs_dumpsV]
        exact IH1 v _ (by omega) (nb_dictTail m rest)
      rw [pMemberValue_step g (.exact k.data) h1]
      exact IH10 k v m rest (by have := dumpsV_length_pos v; omega)
    · -- pMemberAfter
      intro k v m rest hf
      cases m with
      | nil =>
        rw [show dumpsDictTail [] ++ '\x7d' :: rest = '\x7d' :: rest from rfl]
        rw [pMemberAfter_step g (.exact k.data) (.exact v)
          (skipWs_cons_of_not_ws (by decide) rest)]
        rw [if_neg (by decide : ¬ ('\x7d' : Char) = ','), if_pos rfl]
        rfl
      | cons p m2 =>
        obtain ⟨k2, v2⟩ := p
        have hshape : dumpsDictTail ((k2, v2) :: m2) ++ '\x7d' :: rest
            = ',' :: (' ' :: (strChars k2
                ++ (':' :: ' ' :: dumpsV v2 ++ dumpsDictTail m2 ++ '\x7d' :: rest))) := by
          rw [show dumpsDictTail ((k2, v2) :: m2)
              = ',' :: ' ' :: strChars k2 ++ ':' :: ' ' :: dumpsV v2 ++ dumpsDictTail m2
            from rfl]
          simp
        rw [hshape, pMemberAfter_step g (.exact k.data) (.exact v)
          (skipWs_cons_of_not_ws (by decide) _)]
        rw [if_pos rfl]
        have hsw6 : skipWs (' ' :: (strChars k2
              ++ (':' :: ' ' :: dumpsV v2 ++ dumpsDictTail m2 ++ '\x7d' :: rest)))
            = strChars k2 ++ ':' :: ' ' :: dumpsV v2 ++ dumpsDictTail m2 ++ '\x7d' :: rest := by
          rw [skipWs_cons_of_ws (by decide), skipWs_strChars]
          simp
        rw [IH6 k2 v2 m2 rest _ hsw6 (by rw [len_dumpsDictTail_cons] at hf; omega)]
        rfl

theorem skipWs_dumpsV_nil (v : PyValue) : skipWs (dumpsV v) = dumpsV v := by
  have h := skipWs_dumpsV v []
  simpa using h

theorem loads_dumps (v : PyValue) : loads (dumps v) = some (.exact v) := by
  have h1 : pValue (2 * (dumps v).data.length + 2) (skipWs (dumps v).data)
      = some (.exact v, []) := by
    have hdata : (dumps v).data = dumpsV v := rfl
    rw [hdata, skipWs_dumpsV_nil]
    have h2 := (parse_complete (2 * (dumpsV v).length + 2)).1 v [] (by omega) rfl
    simpa using h2
  unfold loads
  rw [h1]
  rfl

theorem loads_frac_accepted : loads "1.5" = some DecVal.approx := rfl

theorem loads_exp_accepted : loads "1e3" = some DecVal.approx := rfl

theorem loads_nan_accepted : loads "NaN" = some DecVal.approx := rfl

theorem loads_neg_inf_accepted : loads "-Infinity" = some DecVal.approx := rfl

theorem loads_leading_zero_rejected : loads "0123" = none := rfl

theorem loads_bare_dot_rejected : loads "1." = none := rfl

theorem loads_bare_exp_rejected : loads "1e" = none := rfl

theorem loads_int_accepted : loads "123" = some (DecVal.exact (PyValue.int 123)) := rfl

theorem loads_lone_surrogate_accepted :
    loads "\"\\ud800\"" = some DecVal.approx := rfl

theorem loads_surrogate_pair_accepted :
    loads "\"\\ud83d\\ude00\"" = some (DecVal.exact (PyValue.str "😀")) := rfl

theorem lookup_cons_eq (k pv : String) (t : Headers) :
    List.lookup k ((k, pv) :: t) = some pv := by
  simp [List.lookup]

theorem lookup_cons_ne {k pk : String} (pv : String) (t : Headers)
    (h : (k == pk) = false) :
    List.lookup k ((pk, pv) :: t) = List.lookup k t := by
  simp [List.lookup, h]

theorem lookup_append_some {k v : String} {l1 : Headers} (l2 : Headers)
    (hv : List.lookup k l1 = some v) :
    List.lookup k (l1 ++ l2) = some v := by
  induction l1 with
  | nil => simp [List.lookup] at hv
  | cons p t ih =>
    obtain ⟨pk, pv⟩ := p
    rw [List.cons_append]
    by_cases hk : k = pk
    · subst hk
      rw [lookup_cons_eq] at hv
      rw [lookup_cons_eq]
      exact hv
    · have hb : (k == pk) = false := by simpa using hk
      rw [lookup_cons_ne pv t hb] at hv
      rw [lookup_cons_ne pv (t ++ l2) hb]
      exact ih hv

theorem lookup_append_none {k : String} {l1 : Headers} (l2 : Headers)
    (hn : List.lookup k l1 = none) :
    List.lookup k (l1 ++ l2) = List.lookup k l2 := by
  induction l1 with
  | nil => rfl
  | cons p t ih =>
    obtain ⟨pk, pv⟩ := p
    rw [List.cons_append]
    by_cases hk : k = pk
    · subst hk
      rw [lookup_cons_eq] at hn
      exact absurd hn (by simp)
    · have hb : (k == pk) = false := by simpa using hk
      rw [lookup_cons_ne pv t hb] at hn
      rw [lookup_cons_ne pv (t ++ l2) hb]
      exact ih hn

theorem lookup_map_override (k : String) (a b : Headers) :
    List.lookup k (a.map (fun p => (p.1, (List.lookup p.1 b).getD p.2)))
      = (List.lookup k a).map (fun w => (List.lookup k b).getD w) := by
  induction a with
  | nil => rfl
  | cons p t ih =>
    obtain ⟨pk, pv⟩ := p
    rw [List.map_cons]
    by_cases hk : k = pk
    · subst hk
      rw [lookup_cons_eq, lookup_cons_eq]
      rfl
    · have hb : (k == pk) = false := by simpa using hk
      rw [lookup_cons_ne _ _ hb, lookup_cons_ne pv t hb]
      exact ih

theorem lookup_filter_new (k : String) (a b : Headers)
    (hka : List.lookup k a = none) :
    List.lookup k (b.filter (fun q => (List.lookup q.1 a).isNone))
      = List.lookup k b := by
  induction b with
  | nil => rfl
  | cons q t ih =>
    obtain ⟨qk, qv⟩ := q
    rw [List.filter_cons]
    by_cases hk : k = qk
    · subst hk
      have hpred : ((fun q => (List.lookup q.1 a).isNone) ((k, qv) : String × String))
          = true := by
        simp [hka]
      rw [if_pos hpred, lookup_cons_eq, lookup_cons_eq]
    · have hb : (k == qk) = false := by simpa using hk
      by_cases hq : ((fun q => (List.lookup q.1 a).isNone) ((qk, qv) : String × String)) = true
      · rw [if_pos hq, lookup_cons_ne qv _ hb, lookup_cons_ne qv t hb]
        exact ih
      · rw [if_neg hq, lookup_cons_ne qv t hb]
        exact ih

theorem dictMerge_lookup_right {k v : String} {b : Headers} (a : Headers)
    (hv : List.lookup k b = some v) :
    List.lookup k (dictMerge a b) = some v := by
  unfold dictMerge
  cases ha : List.lookup k a with
  | some w =>
    have hsome : List.lookup k (a.map (fun p => (p.1, (List.lookup p.1 b).getD p.2)))
        = some ((List.lookup k b).getD w) := by
      rw [lookup_map_override, ha]
      rfl
    rw [lookup_append_some _ hsome, hv]
    rfl
  | none =>
    have hnone : List.lookup k (a.map (fun p => (p.1, (List.lookup p.1 b).getD p.2)))
        = none := by
      rw [lookup_map_override, ha]
      rfl
    rw [lookup_append_none _ hnone, lookup_filter_new k a b ha]
    exact hv

theorem dictMerge_lookup_left {k : String} {b : Headers} (a : Headers)
    (hb : List.lookup k b = none) :
    List.lookup k (dictMerge a b) = List.lookup k a := by
  unfold dictMerge
  cases ha : List.lookup k a with
  | some w =>
    have hsome : List.lookup k (a.map (fun p => (p.1, (List.lookup p.1 b).getD p.2)))
        = some ((List.lookup k b).getD w) := by
      rw [lookup_map_override, ha]
      rfl
    rw [lookup_append_some _ hsome, hb]
    rfl
  | none =>
    have hnone : List.lookup k (a.map (fun p => (p.1, (List.lookup p.1 b).getD p.2)))
        = none := by
      rw [lookup_map_override, ha]
      rfl
    rw [lookup_append_none _ hnone, lookup_filter_new k a b ha, hb]

theorem send_state_eq (s : ClientState) (m : SendMsg) (w : Bool) :
    (send s m w).1 = s := by
  unfold send
  split_ifs <;> rfl

theorem ping_state_eq (s : ClientState) (ok : Bool) : (ping s ok).1 = s := by
  unfold ping
  split_ifs <;> rfl

theorem processFrame_state (s : ClientState) (f : String)
    (onMsg : DecVal → HandlerOutcome) : (processFrame s f onMsg).1 = s := by
  unfold processFrame safe_call_handler call_handler
  by_cases hm : s.hasOnMessage <;> cases honm : onMsg (dispatchFrame f) <;> simp [hm, honm]

theorem processFrame_delivered (s : ClientState) (f : String)
    (onMsg : DecVal → HandlerOutcome) :
    deliveredValues (processFrame s f onMsg).2
      = if s.hasOnMessage then [dispatchFrame f] else [] := by
  unfold processFrame safe_call_handler call_handler
  by_cases hm : s.hasOnMessage <;> cases honm : onMsg (dispatchFrame f) <;>
    simp [hm, honm, deliveredValues]

theorem countOpens_append (a b : List Event) :
    countOpens (a ++ b) = countOpens a + countOpens b := by
  simp [countOpens, List.filter_append]

theorem countOpens_disconnect_if (b : Bool) :
    countOpens (if b then [Event.callOnDisconnect] else []) = 0 := by
  cases b <;> rfl

theorem countOpens_error_if (b : Bool) (e : String) :
    countOpens (if b then [Event.callOnError e] else []) = 0 := by
  cases b <;> rfl

theorem countOpens_connect_if (b : Bool) :
    countOpens (if b then [Event.callOnConnect] else []) = 0 := by
  cases b <;> rfl

/-- C1 counterexample: a `connect` call that fails does change the stored
parameters: on a fresh client, a failing connect to a new URL leaves the
stored `_url` equal to that URL, not to its previous value `None`. -/
theorem C1_counterexample :
    (connect initClient "ws://a" none none (.failed "boom")).1.url
      ≠ initClient.url := by
  decide

/-- C1 (amended): when the transport open raises, `connect` logs, invokes
`on_error` with the cause (when a handler is registered) and returns
false, but the stored parameters have already been overwritten: after the
call they equal the current call's url, headers (defaulted to empty) and
ssl context, not their previous values. -/
theorem C1_connect_failure (s : ClientState) (url : String)
    (headers : Option Headers) (ssl : Option Nat) (e : String) :
    connect s url headers ssl (.failed e)
      = ({ s with url := some url, headers := some (headers.getD []),
                  ssl_context := ssl },
         false,
         Event.transportOpen url (finalHeaders (headers.getD [])) ::
           (if s.hasOnError then [Event.callOnError e] else [])) := rfl

/-- C2 counterexample: a plain text payload that happens to be valid JSON
is not delivered unchanged as text: sending the text payload of three
digit characters through a loopback echo delivers the decoded number, not
the text. -/
theorem C2_counterexample :
    dispatchFrame (sendPayload (SendMsg.text "123"))
      ≠ DecVal.exact (PyValue.str "123") := by
  intro h
  have h1 : dispatchFrame (sendPayload (SendMsg.text "123"))
      = DecVal.exact (PyValue.int 123) := rfl
  rw [h1] at h
  exact PyValue.noConfusion (DecVal.exact.inj h)

/-- C2 (amended): a structured (dict) payload sent and echoed back
verbatim by a loopback transport is delivered to `on_message` as a
structured value equal to the original; a plain text payload sent and
echoed is delivered unchanged as text provided the text itself is not
decodable by `json.loads` (texts the decoder accepts — including numbers
with fraction or exponent parts and the NaN and infinity constants —
are delivered as the decoded value instead). -/
theorem C2_echo_roundtrip :
    (∀ m : List (String × PyValue),
      dispatchFrame (sendPayload (SendMsg.dict m)) = DecVal.exact (PyValue.dict m)) ∧
    (∀ t : String, loads t = none →
      dispatchFrame (sendPayload (SendMsg.text t)) = DecVal.exact (PyValue.str t)) := by
  constructor
  · intro m
    rw [show sendPayload (SendMsg.dict m) = dumps (.dict m) from rfl]
    unfold dispatchFrame
    rw [loads_dumps]
  · intro t ht
    unfold dispatchFrame
    rw [show sendPayload (SendMsg.text t) = t from rfl, ht]

/-- C2 witness: the round trip at the concrete dict and text payloads of
the examples. -/
theorem C2_echo_roundtrip_witness :
    dispatchFrame (sendPayload (SendMsg.dict
        [("type", PyValue.str "x"), ("n", PyValue.int 1)]))
      = DecVal.exact (PyValue.dict [("type", PyValue.str "x"), ("n", PyValue.int 1)]) ∧
    dispatchFrame (sendPayload (SendMsg.text "ping-text"))
      = DecVal.exact (PyValue.str "ping-text") :=
  ⟨C2_echo_roundtrip.1 _, C2_echo_roundtrip.2 "ping-text" rfl⟩

/-- C6: after a `connect` that returns true (the transport yielded an
open handle), `get_connection_state` reports OPEN and the reconnect
attempt counter is zero. -/
theorem C6_connect_success (s : ClientState) (url : String)
    (headers : Option Headers) (ssl : Option Nat) (h : Handle)
    (hopen : h.closed = false) :
    (connect s url headers ssl (.opened h)).2.1 = true ∧
    get_connection_state (connect s url headers ssl (.opened h)).1
      = ConnState.OPEN ∧
    (connect s url headers ssl (.opened h)).1.reconnect_attempts = 0 := by
  refine ⟨rfl, ?_, rfl⟩
  simp [connect, get_connection_state, hopen]

/-- C6 witness: a fresh client connecting over a transport that opens
handle 0. -/
theorem C6_connect_success_witness :
    (connect initClient "ws://a" none none (.opened ⟨0, false⟩)).2.1 = true ∧
    get_connection_state (connect initClient "ws://a" none none
      (.opened ⟨0, false⟩)).1 = ConnState.OPEN ∧
    (connect initClient "ws://a" none none
      (.opened ⟨0, false⟩)).1.reconnect_attempts = 0 :=
  C6_connect_success initClient "ws://a" none none ⟨0, false⟩ rfl

/-- C7: `send` on a client that is not connected, or holds no transport
handle, returns false, logs, leaves the state unchanged and performs no
transport write. -/
theorem C7_send_not_open (s : ClientState) (m : SendMsg) (w : Bool)
    (h : s.is_connected = false ∨ s.websocket = none) :
    send s m w = (s, false, [Event.logError]) ∧
    ∀ d, Event.transportWrite d ∉ (send s m w).2.2 := by
  have hg : (!s.is_connected || s.websocket.isNone) = true := by
    rcases h with h | h
    · simp [h]
    · simp [h]
  have he : send s m w = (s, false, [Event.logError]) := by
    unfold send
    rw [if_pos hg]
  refine ⟨he, ?_⟩
  intro d hd
  rw [he] at hd
  simp at hd

/-- C7 witness: sending text on a fresh (disconnected) client. -/
theorem C7_send_not_open_witness :
    send initClient (SendMsg.text "hello") true
      = (initClient, false, [Event.logError]) ∧
    ∀ d, Event.transportWrite d
      ∉ (send initClient (SendMsg.text "hello") true).2.2 :=
  C7_send_not_open initClient (SendMsg.text "hello") true (Or.inl rfl)

/-- C9: `close` with no transport handle is a no-op: the state is
unchanged and no task cancellation or close handshake is issued. -/
theorem C9_close_no_handle (s : ClientState) (code : Nat) (reason : String)
    (h : s.websocket = none) :
    close s code reason = (s, []) := by
  unfold close
  rw [h]

/-- C9 witness: closing a fresh client. -/
theorem C9_close_no_handle_witness :
    close initClient 1000 "done" = (initClient, []) :=
  C9_close_no_handle initClient 1000 "done" rfl

/-- C3: the merged header set used by `connect` contains every default
header key and every caller key; on a key present in both, the caller
value wins; `connect` opens the transport with exactly this merged set,
and the reconnect path re-merges the stored caller headers the same way. -/
theorem C3_header_override :
    (∀ (caller : Headers) (k v : String),
      List.lookup k caller = some v →
      List.lookup k (finalHeaders caller) = some v) ∧
    (∀ (caller : Headers) (k : String),
      (List.lookup k default_headers).isSome = true →
      (List.lookup k (finalHeaders caller)).isSome = true) ∧
    (∀ (caller : Headers) (k : String),
      (List.lookup k caller).isSome = true →
      (List.lookup k (finalHeaders caller)).isSome = true) ∧
    (∀ (s : ClientState) (url : String) (headers : Option Headers)
      (ssl : Option Nat) (tr : TransportResult),
      (connect s url headers ssl tr).2.2.head?
        = some (Event.transportOpen url (finalHeaders (headers.getD [])))) ∧
    (∀ (s : ClientState) (tr : TransportResult) (u : String),
      s.reconnect_attempts < s.max_reconnect_attempts →
      s.url = some u → u.isEmpty = false →
      Event.transportOpen u (finalHeaders (s.headers.getD []))
        ∈ (handleClosed s tr).2) := by
  refine ⟨?_, ?_, ?_, ?_, ?_⟩
  · intro caller k v h
    exact dictMerge_lookup_right default_headers h
  · intro caller k h
    cases hb : List.lookup k caller with
    | some w =>
      rw [show finalHeaders caller = dictMerge default_headers caller from rfl]
      rw [dictMerge_lookup_right default_headers hb]
      rfl
    | none =>
      rw [show finalHeaders caller = dictMerge default_headers caller from rfl]
      rw [dictMerge_lookup_left default_headers hb]
      exact h
  · intro caller k h
    cases hb : List.lookup k caller with
    | some w =>
      rw [show finalHeaders caller = dictMerge default_headers caller from rfl]
      rw [dictMerge_lookup_right default_headers hb]
      rfl
    | none =>
      rw [hb] at h
      simp at h
  · intro s url headers ssl tr
    cases tr <;> rfl
  · intro s tr u hlt hurl hne
    cases tr with
    | opened h =>
      simp [handleClosed, attemptReconnect, markClosed, connect, hurl, hne, hlt]
    | failed e =>
      simp [handleClosed, attemptReconnect, markClosed, connect, hurl, hne, hlt]

theorem deliveredValues_append (a b : List Event) :
    deliveredValues (a ++ b) = deliveredValues a ++ deliveredValues b := by
  simp [deliveredValues]

/-- C3 witness: a caller map overriding the Accept default, checked in
the merged set, at connect time, and on a reconnect-ready client. -/
theorem C3_header_override_witness :
    List.lookup "Accept" (finalHeaders [("Accept", "text-plain")])
      = some "text-plain" ∧
    (List.lookup "User-Agent" (finalHeaders [("Accept", "text-plain")])).isSome
      = true ∧
    (List.lookup "Accept" (finalHeaders [("Accept", "text-plain")])).isSome
      = true ∧
    (connect initClient "ws://a" (some [("Accept", "text-plain")]) none
      (.failed "x")).2.2.head? = some (Event.transportOpen "ws://a"
        (finalHeaders [("Accept", "text-plain")])) ∧
    Event.transportOpen "ws://a" (finalHeaders [])
      ∈ (handleClosed { initClient with url := some "ws://a" } (.failed "x")).2 :=
  ⟨C3_header_override.1 [("Accept", "text-plain")] "Accept" "text-plain" (by decide),
   C3_header_override.2.1 [("Accept", "text-plain")] "User-Agent" (by decide),
   C3_header_override.2.2.1 [("Accept", "text-plain")] "Accept" (by decide),
   C3_header_override.2.2.2.1 initClient "ws://a" (some [("Accept", "text-plain")])
     none (.failed "x"),
   C3_header_override.2.2.2.2 { initClient with url := some "ws://a" }
     (.failed "x") "ws://a" (by decide) rfl (by decide)⟩

/-- C8: handler exceptions are caught at the dispatch boundary: the
guarded call returns normally (only logging) on a raise, and under every
on_message handler outcome assignment, including ones that always raise,
the listener loop leaves the client state unchanged and still delivers
the dispatch value of every frame, in order. -/
theorem C8_handler_exception_guard :
    (∀ (s : ClientState) (e : String),
      safe_call_handler s (.raises e) = (s, [Event.logError])) ∧
    (∀ (s : ClientState) (frames : List String)
      (onMsg : DecVal → HandlerOutcome),
      (listenFrames s frames onMsg).1 = s ∧
      deliveredValues (listenFrames s frames onMsg).2
        = (if s.hasOnMessage then frames.map dispatchFrame else [])) := by
  constructor
  · intro s e
    rfl
  · intro s frames onMsg
    induction frames with
    | nil =>
      refine ⟨rfl, ?_⟩
      cases hm : s.hasOnMessage <;> simp [listenFrames, deliveredValues, hm]
    | cons f fs ih =>
      obtain ⟨ihs, ihd⟩ := ih
      constructor
      · simp only [listenFrames]
        rw [processFrame_state]
        exact ihs
      · simp only [listenFrames]
        rw [processFrame_state, deliveredValues_append, processFrame_delivered, ihd]
        cases hm : s.hasOnMessage <;> simp [hm]

/-- C5: the reconnect attempt counter never exceeds the configured
maximum: a fresh client satisfies the bound and every operation
(connect, the listener's closed-connection path, send, ping, close)
preserves it. -/
theorem C5_attempts_bounded :
    initClient.reconnect_attempts ≤ initClient.max_reconnect_attempts ∧
    ∀ (s : ClientState) (op : Op),
      s.reconnect_attempts ≤ s.max_reconnect_attempts →
      (applyOp s op).reconnect_attempts ≤ (applyOp s op).max_reconnect_attempts := by
  constructor
  · decide
  · intro s op h
    cases op with
    | connectOp u hs ssl tr =>
      cases tr with
      | opened hd => simp [applyOp, connect]
      | failed e => simpa [applyOp, connect] using h
    | closedOp tr =>
      by_cases hlt : s.reconnect_attempts < s.max_reconnect_attempts
      · cases hu : s.url with
        | none =>
          simp [applyOp, handleClosed, attemptReconnect, markClosed, hlt, hu]
          omega
        | some u =>
          by_cases he : u.isEmpty
          · simp [applyOp, handleClosed, attemptReconnect, markClosed, hlt, hu, he]
            omega
          · cases tr with
            | opened hd =>
              simp [applyOp, handleClosed, attemptReconnect, markClosed, connect,
                hlt, hu, he]
            | failed e2 =>
              simp [applyOp, handleClosed, attemptReconnect, markClosed, connect,
                hlt, hu, he]
              omega
      · simpa [applyOp, handleClosed, markClosed, hlt] using h
    | sendOp m w =>
      rw [show applyOp s (.sendOp m w) = (send s m w).1 from rfl, send_state_eq]
      exact h
    | pingOp ok =>
      rw [show applyOp s (.pingOp ok) = (ping s ok).1 from rfl, ping_state_eq]
      exact h
    | closeOp c r =>
      cases hw : s.websocket with
      | none => simpa [applyOp, close, hw] using h
      | some hd => simpa [applyOp, close, hw] using h

/-- C5 witness: the bound holds across a ping on a fresh client. -/
theorem C5_attempts_bounded_witness :
    (applyOp initClient (Op.pingOp true)).reconnect_attempts
      ≤ (applyOp initClient (Op.pingOp true)).max_reconnect_attempts :=
  C5_attempts_bounded.2 initClient (Op.pingOp true) (by decide)

/-- C10: `get_connection_state` reports DISCONNECTED exactly when no
transport handle is stored; no operation ever clears a stored handle;
and a stored handle the transport reports closed yields CLOSED — so a
client that ever successfully connected reports CLOSED, never
DISCONNECTED, after its connection ends. -/
theorem C10_once_connected_reports_closed :
    (∀ s : ClientState,
      get_connection_state s = ConnState.DISCONNECTED ↔ s.websocket = none) ∧
    (∀ (s : ClientState) (op : Op),
      s.websocket ≠ none → (applyOp s op).websocket ≠ none) ∧
    (∀ (s : ClientState) (h : Handle), s.websocket = some h → h.closed = true →
      get_connection_state s = ConnState.CLOSED) := by
  refine ⟨?_, ?_, ?_⟩
  · intro s
    cases hw : s.websocket with
    | none => simp [get_connection_state, hw]
    | some hd =>
      simp only [get_connection_state, hw]
      split_ifs <;> simp
  · intro s op h
    cases op with
    | connectOp u hs ssl tr =>
      cases tr with
      | opened hd => simp [applyOp, connect]
      | failed e => simpa [applyOp, connect] using h
    | closedOp tr =>
      by_cases hlt : s.reconnect_attempts < s.max_reconnect_attempts
      · cases hu : s.url with
        | none =>
          simp [applyOp, handleClosed, attemptReconnect, markClosed, hlt, hu,
            Option.map_eq_none']
          exact h
        | some u =>
          by_cases he : u.isEmpty
          · simp [applyOp, handleClosed, attemptReconnect, markClosed, hlt, hu, he,
              Option.map_eq_none']
            exact h
          · cases tr with
            | opened hd =>
              simp [applyOp, handleClosed, attemptReconnect, markClosed, connect,
                hlt, hu, he]
            | failed e2 =>
              simp [applyOp, handleClosed, attemptReconnect, markClosed, connect,
                hlt, hu, he, Option.map_eq_none']
              exact h
      · simp [applyOp, handleClosed, markClosed, hlt, Option.map_eq_none']
        exact h
    | sendOp m w =>
      rw [show applyOp s (.sendOp m w) = (send s m w).1 from rfl, send_state_eq]
      exact h
    | pingOp ok =>
      rw [show applyOp s (.pingOp ok) = (ping s ok).1 from rfl, ping_state_eq]
      exact h
    | closeOp c r =>
      cases hw : s.websocket with
      | none => simpa [applyOp, close, hw] using h
      | some hd => simp [applyOp, close, hw]
  · intro s hd hsw hcl
    simp [get_connection_state, hsw, hcl]

/-- C10 witness: a fresh client reports DISCONNECTED; closing a client
holding a closed handle keeps the handle; a closed retained handle
reports CLOSED. -/
theorem C10_once_connected_reports_closed_witness :
    (get_connection_state initClient = ConnState.DISCONNECTED
      ↔ initClient.websocket = none) ∧
    (applyOp { initClient with websocket := some ⟨0, true⟩ }
      (Op.closeOp 1000 "x")).websocket ≠ none ∧
    get_connection_state { initClient with websocket := some ⟨0, true⟩ }
      = ConnState.CLOSED :=
  ⟨C10_once_connected_reports_closed.1 initClient,
   C10_once_connected_reports_closed.2.1 { initClient with websocket := some ⟨0, true⟩ }
     (Op.closeOp 1000 "x") (by decide),
   C10_once_connected_reports_closed.2.2 { initClient with websocket := some ⟨0, true⟩ }
     ⟨0, true⟩ rfl rfl⟩

/-- C4 counterexample: once reconnect attempts reach the maximum, a
client whose connection has ended does not report DISCONNECTED: the
defunct handle is retained, so `get_connection_state` reports CLOSED. -/
theorem C4_counterexample :
    get_connection_state (handleClosed
      { initClient with websocket := some ⟨0, false⟩, is_connected := true,
                        reconnect_attempts := 5, url := some "ws://a",
                        headers := some [] }
      (.failed "refused")).1 = ConnState.CLOSED ∧
    ConnState.CLOSED ≠ ConnState.DISCONNECTED := by
  constructor
  · decide
  · decide

/-- C4 (amended): if an automatic reconnect attempt's connect call
fails, no further automatic reconnect is attempted from that failure
(at most one transport open per closure, and the client stays not
connected); once reconnect attempts reach `max_reconnect_attempts` the
closed-connection path attempts no transport open at all and, beyond
marking the handle closed and dropping the connected flag, changes
nothing (counter and stored URL kept) until the caller explicitly calls
connect — and the state then reported is CLOSED, not DISCONNECTED,
since the defunct handle is retained. -/
theorem C4_reconnect_stops (s : ClientState) (e : String) (tr : TransportResult)
    (hd : Handle) :
    (countOpens (handleClosed s (.failed e)).2 ≤ 1 ∧
      (handleClosed s (.failed e)).1.is_connected = false) ∧
    (s.max_reconnect_attempts ≤ s.reconnect_attempts →
      countOpens (handleClosed s tr).2 = 0 ∧
      (handleClosed s tr).1 = { markClosed s with is_connected := false } ∧
      (handleClosed s tr).1.reconnect_attempts = s.reconnect_attempts ∧
      (handleClosed s tr).1.url = s.url) ∧
    (s.websocket = some hd → s.max_reconnect_attempts ≤ s.reconnect_attempts →
      get_connection_state (handleClosed s tr).1 = ConnState.CLOSED) := by
  refine ⟨⟨?_, ?_⟩, ?_, ?_⟩
  · by_cases hlt : s.reconnect_attempts < s.max_reconnect_attempts
    · cases hu : s.url with
      | none =>
        cases hD : s.hasOnDisconnect <;>
          simp [handleClosed, attemptReconnect, markClosed, hlt, hu, hD, countOpens]
      | some u =>
        by_cases he : u.isEmpty
        · cases hD : s.hasOnDisconnect <;>
            simp [handleClosed, attemptReconnect, markClosed, hlt, hu, he, hD,
              countOpens]
        · cases hD : s.hasOnDisconnect <;> cases hE : s.hasOnError <;>
            simp [handleClosed, attemptReconnect, markClosed, connect, hlt, hu, he,
              hD, hE, countOpens]
    · cases hD : s.hasOnDisconnect <;>
        simp [handleClosed, markClosed, hlt, hD, countOpens]
  · by_cases hlt : s.reconnect_attempts < s.max_reconnect_attempts
    · cases hu : s.url with
      | none =>
        simp [handleClosed, attemptReconnect, markClosed, hlt, hu]
      | some u =>
        by_cases he : u.isEmpty
        · simp [handleClosed, attemptReconnect, markClosed, hlt, hu, he]
        · simp [handleClosed, attemptReconnect, markClosed, connect, hlt, hu, he]
    · simp [handleClosed, markClosed, hlt]
  · intro hge
    have hnlt : ¬ s.reconnect_attempts < s.max_reconnect_attempts := by omega
    refine ⟨?_, ?_, ?_, ?_⟩
    · cases hD : s.hasOnDisconnect <;>
        simp [handleClosed, markClosed, hnlt, hD, countOpens]
    · simp [handleClosed, markClosed, hnlt]
    · simp [handleClosed, markClosed, hnlt]
    · simp [handleClosed, markClosed, hnlt]
  · intro hws hge
    have hnlt : ¬ s.reconnect_attempts < s.max_reconnect_attempts := by omega
    simp [handleClosed, markClosed, hnlt, get_connection_state, hws]

/-- C4 witness: a client that reached the maximum of five attempts with
a live handle and stored URL: the closed-connection path opens no
transport and reports CLOSED. -/
theorem C4_reconnect_stops_witness :
    countOpens (handleClosed
      { initClient with websocket := some ⟨0, false⟩, is_connected := true,
                        reconnect_attempts := 5, url := some "ws://a",
                        headers := some [] }
      (.failed "refused")).2 = 0 ∧
    get_connection_state (handleClosed
      { initClient with websocket := some ⟨0, false⟩, is_connected := true,
                        reconnect_attempts := 5, url := some "ws://a",
                        headers := some [] }
      (.failed "refused")).1 = ConnState.CLOSED :=
  ⟨((C4_reconnect_stops
      { initClient with websocket := some ⟨0, false⟩, is_connected := true,
                        reconnect_attempts := 5, url := some "ws://a",
                        headers := some [] }
      "refused" (.failed "refused") ⟨0, false⟩).2.1 (by decide)).1,
   (C4_reconnect_stops
      { initClient with websocket := some ⟨0, false⟩, is_connected := true,
                        reconnect_attempts := 5, url := some "ws://a",
                        headers := some [] }
      "refused" (.failed "refused") ⟨0, false⟩).2.2 rfl (by decide)⟩
